import Mathlib

/-!
# bason: the tree-walking interpreter of `src/interpreter.js`

A shallow embedding of the interpreter object (`run`, `import`, `FIND`, `EVAL`
and the built-in keyword frames of `Stack`) together with the properties of
its scope discipline, lookup, binding and control-flow keywords.

Conventions of the embedding.

* A JavaScript object is the list of its own enumerable properties, in the
  order `Object.keys` reports them.  The prototype of every frame is
  `Object.prototype`: `key in frame` also holds for the names a frame
  inherits from it (`inherited`), and a member found that way is applied as
  the source applies it (`inheritedMember`).  An assignment that would give
  a frame another prototype (`obj["__proto__"] = value` with an object or
  `null`) leaves the model.
* Numbers are the doubles with an integer value, together with `NaN`:
  `num n` stands for the double `n`, and the sum, difference and product of
  two doubles is the exact result rounded to the nearest double, ties to
  even (`double`).  A result that is not an integer (a fractional quotient,
  an infinity) leaves the model, and so does a `num n` whose `n` no double
  has.  Numbers below `10^21` in magnitude print in decimal.
* Arrays are values.  The one place where the source mutates an array that
  may be shared (`params.push(expression.script)` on an array obtained from
  a keyword node) leaves the model.
* The frames of `Stack` are objects with identity.  They are referenced only
  by `Stack` itself and by the global `variable` that `FOR` assigns, so the
  state holds the stack as a list of frames and `variable` as a reference
  that is either an index of the stack or a frame already spliced off.
* Recursion depth and loop iterations are bounded by a fuel argument; an
  evaluation that exhausts it has the result `timeout`.  Behaviour outside
  the modelled part of JavaScript has the result `unsupported`.
-/

namespace Bason

/-! ## Values -/

/-- The built-in keyword implementations, one per frame of the initial `Stack`
(`EQ` is `"=="`, `NE` is `"<>"`, `GT` `">"`, `LT` `"<"`, `GE` `">="`,
`LE` `"<="`). -/
inductive Native where
  | LET | FUNCTION | RETURN | SET | INC
  | ADD | SUB | MUL | DIV | MOD
  | EQ | NE | GT | LT | GE | LE
  | AND | OR | PRINT | FOR | IF | WHILE
  deriving DecidableEq, Repr

/-- JavaScript values handled by the interpreter.  `closure params script` is
the function object built by `FUNCTION` (lines 96-109), which closes over
`params` and `script`; `typeError` is a `TypeError` object thrown by the host
(reading a property of `null`/`undefined`, calling a non-function). -/
inductive Val where
  | undefined
  | null
  | bool (b : Bool)
  | num (n : Int)
  | nan
  | str (s : String)
  | arr (xs : List Val)
  | obj (fields : List (String × Val))
  | native (f : Native)
  | closure (params : List Val) (script : Val)
  | typeError

/-- A frame of the binding stack: an object, normally with a single key. -/
abbrev Frame := List (String × Val)

/-- One call of the console. -/
inductive Out where
  /-- The call `console.log(text)` -/
  | log (text : String)
  /-- The call `console.error("KEY NOT FOUND: '" + keyword + "' on line: " + lineNumber)` -/
  | error (keyword : String) (lineNumber : Val)

/-- What the global `variable` (assigned by `FOR`, line 223) references. -/
inductive VarRef where
  /-- not assigned yet -/
  | unset
  /-- the frame at index `i` of `Stack` -/
  | onStack (i : Nat)
  /-- a frame that has been spliced off `Stack` -/
  | detached (f : Frame)

/-- The mutable state: `this.Stack`, the global `variable`, and the console
output so far (oldest first). -/
structure St where
  stack : List Frame
  /-- the global `variable` -/
  var : VarRef
  out : List Out

/-- Result of running a piece of the interpreter. -/
inductive Res (α : Type) where
  /-- normal completion with a value -/
  | ok (a : α) (s : St)
  /-- abrupt completion: a value was thrown (`RETURN`, or a `TypeError`) -/
  | thrown (v : Val) (s : St)
  /-- the fuel ran out -/
  | timeout
  /-- the evaluation left the modelled part of JavaScript -/
  | unsupported

/-- Sequencing: continue with `k` after a normal completion. -/
def Res.bind {α β : Type} (r : Res α) (k : α → St → Res β) : Res β :=
  match r with
  | .ok a s => k a s
  | .thrown v s => .thrown v s
  | .timeout => .timeout
  | .unsupported => .unsupported

/-- Lift a pure partial computation; `none` is outside the model. -/
def Res.ofOption {α : Type} (o : Option α) (s : St) : Res α :=
  match o with
  | some a => .ok a s
  | none => .unsupported

/-- The signature of `this.EVAL(expression, init, line)`.  `init` is either
absent or the bound initializer of lines 100-104, given by its two bound
arguments `(key, value)`. -/
abbrev Evaluator := Val → Option (List Val × List Val) → Val → St → Res Val

/-! ## Objects and frames -/

/-- The object has the own property `key`
(`Object.prototype.hasOwnProperty.call(obj, key)`). -/
def hasKey (f : List (String × Val)) (key : String) : Bool :=
  f.any (fun p => p.1 == key)

/-- Embeds `obj[key]`: the property value, `undefined` when absent. -/
def getProp (f : List (String × Val)) (key : String) : Val :=
  match f with
  | [] => .undefined
  | p :: rest => if p.1 == key then p.2 else getProp rest key

/-- Embeds `obj[key] = value`: overwrite an existing property, else add one. -/
def setProp (f : List (String × Val)) (key : String) (value : Val) : List (String × Val) :=
  match f with
  | [] => [(key, value)]
  | p :: rest => if p.1 == key then (key, value) :: rest else p :: setProp rest key value

/-- The property names every object inherits from `Object.prototype`
(ECMAScript, with the legacy members of its Annex B). -/
def objectPrototypeKeys : List String :=
  ["constructor", "__defineGetter__", "__defineSetter__", "hasOwnProperty",
   "__lookupGetter__", "__lookupSetter__", "isPrototypeOf", "propertyIsEnumerable",
   "toString", "valueOf", "__proto__", "toLocaleString"]

/-- The name is a member of `Object.prototype`. -/
def inherited (key : String) : Bool := objectPrototypeKeys.contains key

/-- Embeds `key in frame` (line 37) for a frame whose prototype is
`Object.prototype`: an own property, or an inherited one. -/
def inFrame (f : Frame) (key : String) : Bool := hasKey f key || inherited key

/-- A primitive value other than `null`: assigned to `__proto__`, it is
ignored by the setter of `Object.prototype`. -/
def isPrimitive : Val → Bool
  | .undefined => true
  | .bool _ => true
  | .num _ => true
  | .nan => true
  | .str _ => true
  | _ => false

/-- Embeds `frame[key] = value` for a primitive `value`: the own property is
written or created, except that `__proto__`, when it is not an own
property, is the inherited setter, which ignores a primitive. -/
def assignPrimitive (f : Frame) (key : String) (value : Val) : Frame :=
  if key == "__proto__" && !hasKey f key then f else setProp f key value

/-- Embeds `frame[key]` where the result is a value of the model: `none` for
a member inherited from `Object.prototype`. -/
def readFrame (f : Frame) (key : String) : Option Val :=
  if inherited key && !hasKey f key then none else some (getProp f key)

/-- Embeds `this.Stack.push(frame)`. -/
def St.push (s : St) (f : Frame) : St :=
  { s with stack := s.stack ++ [f] }

/-- Embeds `this.Stack[i][key] = value` where the assignment writes or
creates an own property of the frame. -/
def St.setAt (s : St) (i : Nat) (key : String) (value : Val) : St :=
  { s with stack := s.stack.set i (setProp (s.stack.getD i []) key value) }

/-- Embeds `this.Stack[i][key]` for an own property of the frame. -/
def St.getAt (s : St) (i : Nat) (key : String) : Val :=
  getProp (s.stack.getD i []) key

/-- Append one console call. -/
def St.emit (s : St) (o : Out) : St :=
  { s with out := s.out ++ [o] }

/-- Embeds `this.Stack.splice(stackindex)`: drop every frame of index `stackindex`
or more.  A dropped frame that the global `variable` references stays alive,
detached from the stack. -/
def St.splice (s : St) (stackindex : Nat) : St :=
  { s with
    stack := s.stack.take stackindex
    var :=
      match s.var with
      | .onStack i =>
        if stackindex ≤ i ∧ i < s.stack.length then .detached (s.stack.getD i []) else .onStack i
      | r => r }

/-- Embeds `variable[key]` through the global `variable`; `none` if it is
unassigned, or if the value is a member inherited from `Object.prototype`. -/
def St.readVariable (s : St) (key : String) : Option Val :=
  match s.var with
  | .unset => none
  | .onStack i => readFrame (s.stack.getD i []) key
  | .detached f => readFrame f key

/-- Embeds `variable[key] = value` through the global `variable`, for a
primitive `value` (line 225 assigns the result of `+=`). -/
def St.writeVariable (s : St) (key : String) (value : Val) : St :=
  match s.var with
  | .unset => s
  | .onStack i =>
    { s with stack := s.stack.set i (assignPrimitive (s.stack.getD i []) key value) }
  | .detached f => { s with var := .detached (assignPrimitive f key value) }

/-! ## Conversions of the host language -/

/-- JavaScript truthiness. -/
def truthy : Val → Bool
  | .undefined => false
  | .null => false
  | .bool b => b
  | .num n => n != 0
  | .nan => false
  | .str s => s != ""
  | _ => true

/-- Embeds `typeof v == "function"`. -/
def isCallable : Val → Bool
  | .native _ => true
  | .closure _ _ => true
  | _ => false

/-- The test of line 51: `!expression || typeof expression != "object"`. -/
def isLiteral : Val → Bool
  | .arr _ => false
  | .obj _ => false
  | .typeError => false
  | _ => true

/-- Embeds `v == null` (loose): `null` or `undefined`. -/
def isNullish : Val → Bool
  | .undefined => true
  | .null => true
  | _ => false

/-- The exponent of the spacing of the doubles around the magnitude `n`: the
least `e` with `n < 2 ^ (53 + e)`, searched from `e` upwards in `fuel` steps. -/
def spacingExp : Nat → Nat → Nat → Nat
  | 0, _, e => e
  | fuel + 1, n, e => if n < 2 ^ (53 + e) then e else spacingExp fuel n (e + 1)

/-- The double nearest to the integer `x`, ties to even (the rounding of
IEEE 754 arithmetic); `none` when that is an infinity.  Every integer up to
`2 ^ 53` in magnitude is a double; above, the doubles are the multiples of
`2 ^ e` with a 53-bit quotient, up to `(2 ^ 53 - 1) * 2 ^ 971`. -/
def double (x : Int) : Option Int :=
  let n := x.natAbs
  if n ≤ 2 ^ 53 then some x
  else
    let e := spacingExp 1024 n 0
    let q := n / 2 ^ e
    let r := n % 2 ^ e
    let m := if 2 ^ e < 2 * r ∨ (2 * r = 2 ^ e ∧ q % 2 = 1) then q + 1 else q
    if e + (if m = 2 ^ 53 then 1 else 0) ≤ 971 then
      some (if x < 0 then -((m * 2 ^ e : Nat) : Int) else ((m * 2 ^ e : Nat) : Int))
    else none

/-- The integer `x` is the value of a double. -/
def isDouble (x : Int) : Bool := decide (double x = some x)

/-- The number that an operation with the exact integer result `r` returns. -/
def numResult (r : Int) : Option Val := (double r).map Val.num

/-- The object has its own `toString` or `valueOf` property, which then
replaces the inherited conversion method. -/
def ownConversion (fields : List (String × Val)) : Bool :=
  hasKey fields "toString" || hasKey fields "valueOf"

mutual
/-- Embeds `String(v)`.  The source text of a function, the message of an error
object, objects with a conversion method of their own, and the exponent
notation of numbers from `10^21` on are not modelled. -/
def toStr : Val → Option String
  | .undefined => some "undefined"
  | .null => some "null"
  | .bool b => some (if b then "true" else "false")
  | .num n => if isDouble n && decide (n.natAbs < 10 ^ 21) then some (toString n) else none
  | .nan => some "NaN"
  | .str s => some s
  | .arr xs => joinStr xs
  | .obj fields => if ownConversion fields then none else some "[object Object]"
  | .native _ => none
  | .closure _ _ => none
  | .typeError => none
termination_by structural v => v
/-- Embeds `Array.prototype.join` with the separator `","`: `null` and `undefined`
elements contribute the empty string. -/
def joinStr : List Val → Option String
  | [] => some ""
  | x :: rest =>
    let head : Option String :=
      match x with
      | .undefined => some ""
      | .null => some ""
      | v => toStr v
    match rest with
    | [] => head
    | _ :: _ =>
      match head, joinStr rest with
      | some a, some b => some (a ++ "," ++ b)
      | _, _ => none
termination_by structural xs => xs
end

/-- Embeds `ToPropertyKey(v)`, used by `obj[key]` and `key in obj`. -/
def toKey (v : Val) : Option String := toStr v

/-- Embeds `ToPrimitive(v)`: objects become their string. -/
def toPrimitive : Val → Option Val
  | .arr xs => (joinStr xs).map Val.str
  | .obj fields => if ownConversion fields then none else some (.str "[object Object]")
  | .native _ => none
  | .closure _ _ => none
  | .typeError => none
  | v => some v

/-- Characters that can occur in a numeric string literal of JavaScript. -/
def numericChars : List Char :=
  "0123456789+-.eExXoObBaAcCdDfFInity".toList

/-- The value of a string of decimal digits. -/
def digitsToNat (cs : List Char) : Nat :=
  cs.foldl (fun n c => 10 * n + (c.toNat - 48)) 0

/-- Embeds `Number(text)` for a string: `0` on the empty string, the nearest
double on at most 20 decimal digits with an optional minus sign; `NaN` when
a printable ASCII character occurs that no numeric literal contains;
otherwise outside the model. -/
def strToNumber (text : String) : Option Val :=
  match text.toList with
  | [] => some (.num 0)
  | c :: cs =>
    if (c :: cs).all Char.isDigit then
      (if cs.length < 20 then numResult (digitsToNat (c :: cs)) else none)
    else if c = '-' && !cs.isEmpty && cs.all Char.isDigit then
      (if cs.length ≤ 20 then numResult (-(digitsToNat cs : Int)) else none)
    else if (c :: cs).any (fun d => 32 < d.val && d.val < 127 && !numericChars.contains d) then some .nan
    else none

/-- Embeds `ToNumber(v)`; the result is `num _` or `nan`. -/
def toNumber : Val → Option Val
  | .undefined => some .nan
  | .null => some (.num 0)
  | .bool b => some (.num (if b then 1 else 0))
  | .num n => if isDouble n then some (.num n) else none
  | .nan => some .nan
  | .str s => strToNumber s
  | .arr xs => (joinStr xs).bind strToNumber
  | .obj fields => if ownConversion fields then none else some .nan
  | .native _ => none
  | .closure _ _ => none
  | .typeError => none

/-- A binary numeric operator after `ToNumber` on both operands; `NaN` as soon
as one operand is `NaN`. -/
def numericOp (op : Int → Int → Option Val) (A B : Val) : Option Val :=
  match toNumber A, toNumber B with
  | some (.num x), some (.num y) => op x y
  | some _, some _ => some .nan
  | _, _ => none

/-- Embeds `A + B`: string concatenation when one primitive operand is a string,
addition of doubles otherwise. -/
def jsAdd (A B : Val) : Option Val :=
  match toPrimitive A, toPrimitive B with
  | some (.str a), some b => (toStr b).map (fun t => .str (a ++ t))
  | some a, some (.str b) => (toStr a).map (fun t => .str (t ++ b))
  | some a, some b => numericOp (fun x y => numResult (x + y)) a b
  | _, _ => none

/-- Embeds `A / B` on integers: exact quotients only; `0 / 0` is `NaN`. -/
def intDiv (x y : Int) : Option Val :=
  if y = 0 then (if x = 0 then some .nan else none)
  else if x % y = 0 then numResult (x / y) else none

/-- Embeds `A % B` on integers: remainder with the sign of the dividend. -/
def intMod (x y : Int) : Option Val :=
  if y = 0 then some .nan else numResult (Int.tmod x y)

/-- A relational operator (`<`, `>`, `<=`, `>=`): numeric comparison after
`ToNumber`, `false` when an operand is `NaN`.  The comparison of two strings
is not modelled. -/
def relational (cmp : Int → Int → Bool) (A B : Val) : Option Val :=
  match toPrimitive A, toPrimitive B with
  | some (.str _), some (.str _) => none
  | some a, some b =>
    match toNumber a, toNumber b with
    | some (.num x), some (.num y) => some (.bool (cmp x y))
    | some _, some _ => some (.bool false)
    | _, _ => none
  | _, _ => none

/-- Embeds `A == B` (loose equality).  Identity of arrays, objects and closures is
not modelled. -/
def looseEq (A B : Val) : Option Bool :=
  match A, B with
  | .undefined, .undefined => some true
  | .undefined, .null => some true
  | .null, .undefined => some true
  | .null, .null => some true
  | .undefined, _ => some false
  | .null, _ => some false
  | _, .undefined => some false
  | _, .null => some false
  | .native f, .native g => some (f == g)
  | .str a, .str b => some (a == b)
  | .arr _, _ => none
  | _, .arr _ => none
  | .obj _, _ => none
  | _, .obj _ => none
  | .closure _ _, _ => none
  | _, .closure _ _ => none
  | .typeError, _ => none
  | _, .typeError => none
  | .native _, _ => none
  | _, .native _ => none
  | a, b =>
    match toNumber a, toNumber b with
    | some (.num x), some (.num y) => some (x == y)
    | some _, some _ => some false
    | _, _ => none

/-- Embeds `script[n]` for a non-negative integer `n`: `none` stands for the
`TypeError` of reading a property of `undefined` or `null`. -/
def index (v : Val) (n : Nat) : Option (Option Val) :=
  match v with
  | .undefined => some none
  | .null => some none
  | .arr xs => some (some (xs.getD n .undefined))
  | .obj fields => some (some (getProp fields (toString n)))
  | .str _ => none
  | _ => some (some .undefined)

/-- Embeds `args[i]` of a call: `undefined` when the argument is missing. -/
def arg (args : List Val) (i : Nat) : Val :=
  args.getD i .undefined

/-! ## Lookup -/

/-- The loop of `FIND` (lines 36-40): examine the frames of index `i - 1`
down to `0` and return the index of the first one with `keyword in frame`. -/
def scan (stack : List Frame) (keyword : String) : Nat → Option Nat
  | 0 => none
  | i + 1 => if inFrame (stack.getD i []) keyword then some i else scan stack keyword i

/-- Embeds `FIND(keyword, lineNumber, showError)`: the matching frame, as its index
in `Stack`, or `none` for `null`; the state gains a diagnostic when nothing
matched and `showError` is set. -/
def FIND (keyword : String) (lineNumber : Val) (showError : Bool) (s : St) : Option Nat × St :=
  match scan s.stack keyword s.stack.length with
  | some i => (some i, s)
  | none => (none, if showError then s.emit (.error keyword lineNumber) else s)

/-! ## The built-in keywords -/

/-- The property name under which a built-in sits in its frame. -/
def Native.key : Native → String
  | .LET => "LET" | .FUNCTION => "FUNCTION" | .RETURN => "RETURN" | .SET => "SET"
  | .INC => "INC" | .ADD => "ADD" | .SUB => "SUB" | .MUL => "MUL" | .DIV => "DIV"
  | .MOD => "MOD" | .EQ => "==" | .NE => "<>" | .GT => ">" | .LT => "<" | .GE => ">="
  | .LE => "<=" | .AND => "AND" | .OR => "OR" | .PRINT => "PRINT" | .FOR => "FOR"
  | .IF => "IF" | .WHILE => "WHILE"

/-- Embeds `LET(key, value)` (lines 82-86): `obj = {}; obj[key] = value`.
For the key `__proto__` the assignment is the inherited setter: a primitive
value is ignored and the frame pushed is `{}`; an object or `null` would
become the prototype of the frame, which is outside the model. -/
def LET (key value : Val) (s : St) : Res Val :=
  match toKey key with
  | none => .unsupported
  | some k =>
    if k == "__proto__" then
      (if isPrimitive value then .ok .undefined (s.push []) else .unsupported)
    else .ok .undefined (s.push [(k, value)])

/-- Embeds `FUNCTION(key, ...)` (lines 90-112): the parameters are the arguments
between the first and the last, the script is the last argument.  For the
key `__proto__` the assignment `obj[key] = function` would make the function
the prototype of the frame, which is outside the model. -/
def FUNCTION (args : List Val) (s : St) : Res Val :=
  let params := (args.drop 1).dropLast
  let script := args.getD (args.length - 1) .undefined
  match toKey (arg args 0) with
  | none => .unsupported
  | some k =>
    if k == "__proto__" then .unsupported
    else .ok .undefined (s.push [(k, .closure params script)])

/-- Embeds `RETURN(value)` (lines 115-117): `throw value`. -/
def RETURN (value : Val) (s : St) : Res Val :=
  .thrown value s

/-- Embeds `variable[key] = value` (line 131) on the frame of index `i`: the
own property is written or created; `__proto__`, when it is not an own
property of the frame, is the inherited setter, which ignores a primitive
and otherwise changes the prototype (outside the model). -/
def assign (s : St) (i : Nat) (k : String) (value : Val) : Res Val :=
  if k == "__proto__" && !hasKey (s.stack.getD i []) k then
    (if isPrimitive value then .ok .undefined s else .unsupported)
  else .ok .undefined (s.setAt i k value)

/-- Embeds `SET(key, value)` (lines 122-132). -/
def SET (key value : Val) (s : St) : Res Val :=
  match toKey key with
  | none => .unsupported
  | some k =>
    match (FIND k .undefined false s).1 with
    | some i => assign s i k value
    | none =>
      let s1 := s.push [(k, value)]
      match (FIND k .undefined false s1).1 with
      | some i => assign s1 i k value
      | none => .thrown .typeError s1

/-- Embeds `INC(key)` (lines 135-138): `variable[key]++` on the frame found; a
`TypeError` when `FIND` returned `null`.  A member inherited from
`Object.prototype` (a function, or the prototype itself) converts to `NaN`. -/
def INC (key : Val) (s : St) : Res Val :=
  match toKey key with
  | none => .unsupported
  | some k =>
    match (FIND k .undefined false s).1 with
    | none => .thrown .typeError s
    | some i =>
      let incremented :=
        if inherited k && !hasKey (s.stack.getD i []) k then some .nan
        else numericOp (fun x y => numResult (x + y)) (s.getAt i k) (.num 1)
      match incremented with
      | none => .unsupported
      | some v => assign s i k v

/-- Embeds `ADD`, `SUB`, `MUL`, `DIV`, `MOD` (lines 143-165). -/
def arith (f : Native) (A B : Val) : Option Val :=
  match f with
  | .ADD => jsAdd A B
  | .SUB => numericOp (fun x y => numResult (x - y)) A B
  | .MUL => numericOp (fun x y => numResult (x * y)) A B
  | .DIV => numericOp intDiv A B
  | .MOD => numericOp intMod A B
  | _ => none

/-- The relational keywords `==`, `<>`, `>`, `<`, `>=`, `<=` (lines 170-197). -/
def compare (f : Native) (A B : Val) : Option Val :=
  match f with
  | .EQ => (looseEq A B).map Val.bool
  | .NE => (looseEq A B).map (fun b => Val.bool (!b))
  | .GT => relational (fun x y => decide (x > y)) A B
  | .LT => relational (fun x y => decide (x < y)) A B
  | .GE => relational (fun x y => decide (x ≥ y)) A B
  | .LE => relational (fun x y => decide (x ≤ y)) A B
  | _ => none

/-- Embeds `AND(A, B)` is `A && B` (line 203). -/
def AND (A B : Val) : Val := if truthy A then B else A

/-- Embeds `OR(A, B)` is `A || B` (line 208). -/
def OR (A B : Val) : Val := if truthy A then A else B

/-- The loop of `PRINT` (lines 215-217): append the text of every argument
that is neither `null` nor `undefined`. -/
def printText : List Val → String → Option String
  | [], string => some string
  | a :: rest, string =>
    if isNullish a then printText rest string
    else match toStr a with
      | some t => printText rest (string ++ t)
      | none => none

/-- Embeds `PRINT(...)` (lines 213-219). -/
def PRINT (arguments : List Val) (s : St) : Res Val :=
  match printText arguments "" with
  | some string => .ok .undefined (s.emit (.log string))
  | none => .unsupported

/-- The loop of `FOR` (line 225), entered at its test: while
`variable[key] <= end`, evaluate the script, then
`variable[key] += step ? step : 1`.  `n` bounds the number of iterations. -/
def forLoop (ev : Evaluator) (key : String) (endv step script : Val) : Nat → St → Res Val
  | 0, _ => .timeout
  | n + 1, s =>
    match s.readVariable key with
    | none => .unsupported
    | some current =>
      match relational (fun x y => decide (x ≤ y)) current endv with
      | none => .unsupported
      | some test =>
        if truthy test then
          (ev script none .undefined s).bind fun _ s1 =>
            match s1.readVariable key with
            | none => .unsupported
            | some v =>
              match jsAdd v (if truthy step then step else .num 1) with
              | none => .unsupported
              | some w => forLoop ev key endv step script n (s1.writeVariable key w)
        else .ok .undefined s

/-- Lines 223-224 of `FOR`: the loop frame is created, assigned to the
global `variable`, and pushed. -/
def forStart (s : St) (k : String) (start : Val) : St :=
  { s.push [(k, start)] with var := .onStack s.stack.length }

/-- Embeds `FOR(key, start, end, step, script)` (lines 222-228). -/
def FOR (ev : Evaluator) (n : Nat) (key start endv step script : Val) (s : St) : Res Val :=
  match toKey key with
  | none => .unsupported
  | some k => forLoop ev k endv step script n (forStart s k start)

/-- Embeds `IF(condition, script)` (lines 231-237). -/
def IF (ev : Evaluator) (condition script : Val) (s : St) : Res Val :=
  if truthy condition then
    match index script 0 with
    | none => .unsupported
    | some none => .thrown .typeError s
    | some (some e) => (ev e none .undefined s).bind fun _ s1 => .ok .undefined s1
  else
    match index script 1 with
    | none => .unsupported
    | some none => .thrown .typeError s
    | some (some e) =>
      if truthy e then (ev e none .undefined s).bind fun _ s1 => .ok .undefined s1
      else .ok .undefined s

/-- Embeds `script[0][0]`, the condition expression of `WHILE`. -/
def whileCondition (script : Val) : Option (Option Val) :=
  match index script 0 with
  | none => none
  | some none => some none
  | some (some c) => index c 0

/-- The loop of `WHILE` (lines 241-243).  `n` bounds the number of iterations. -/
def whileLoop (ev : Evaluator) (script : Val) : Nat → St → Res Val
  | 0, _ => .timeout
  | n + 1, s =>
    match whileCondition script with
    | none => .unsupported
    | some none => .thrown .typeError s
    | some (some c) =>
      (ev c none .undefined s).bind fun test s1 =>
        if truthy test then
          match index script 1 with
          | none => .unsupported
          | some none => .thrown .typeError s1
          | some (some body) =>
            (ev body none .undefined s1).bind fun _ s2 => whileLoop ev script n s2
        else .ok .undefined s1

/-- Embeds `WHILE(condition, script)` (lines 240-244). -/
def WHILE (ev : Evaluator) (n : Nat) (script : Val) (s : St) : Res Val :=
  whileLoop ev script n s

/-- The function object built by `FUNCTION` (lines 96-109), applied to
`arguments`: evaluate the script with the initializer bound to
`(params, arguments)`; a thrown value is the result, a normal completion
gives `undefined`. -/
def userFunction (ev : Evaluator) (params : List Val) (script : Val) (arguments : List Val)
    (s : St) : Res Val :=
  match ev script (some (params, arguments)) .undefined s with
  | .ok _ s1 => .ok .undefined s1
  | .thrown value s1 => .ok value s1
  | .timeout => .timeout
  | .unsupported => .unsupported

/-- Embeds `f.apply(this, params)` for a function value `f`.  `n` bounds the
iterations of `FOR` and `WHILE`. -/
def apply (ev : Evaluator) (n : Nat) (f : Val) (params : List Val) (s : St) : Res Val :=
  match f with
  | .native .LET => LET (arg params 0) (arg params 1) s
  | .native .FUNCTION => FUNCTION params s
  | .native .RETURN => RETURN (arg params 0) s
  | .native .SET => SET (arg params 0) (arg params 1) s
  | .native .INC => INC (arg params 0) s
  | .native .AND => .ok (AND (arg params 0) (arg params 1)) s
  | .native .OR => .ok (OR (arg params 0) (arg params 1)) s
  | .native .PRINT => PRINT params s
  | .native .FOR =>
    FOR ev n (arg params 0) (arg params 1) (arg params 2) (arg params 3) (arg params 4) s
  | .native .IF => IF ev (arg params 0) (arg params 1) s
  | .native .WHILE => WHILE ev n (arg params 1) s
  | .native .EQ => Res.ofOption (compare .EQ (arg params 0) (arg params 1)) s
  | .native .NE => Res.ofOption (compare .NE (arg params 0) (arg params 1)) s
  | .native .GT => Res.ofOption (compare .GT (arg params 0) (arg params 1)) s
  | .native .LT => Res.ofOption (compare .LT (arg params 0) (arg params 1)) s
  | .native .GE => Res.ofOption (compare .GE (arg params 0) (arg params 1)) s
  | .native .LE => Res.ofOption (compare .LE (arg params 0) (arg params 1)) s
  | .native f => Res.ofOption (arith f (arg params 0) (arg params 1)) s
  | .closure ps script => userFunction ev ps script params s
  | _ => .thrown .typeError s

/-! ## The evaluator -/

/-- The initializer of lines 100-104, bound to `(key, value)`: for each
index of `key`, call whatever `FIND("LET")["LET"]` is with
`(key[i], value[i])`; a `TypeError` when there is no such frame or its value
has no `bind` method. -/
def initializer (ev : Evaluator) (n : Nat) : List Val → List Val → St → Res Val
  | [], _, s => .ok .undefined s
  | k :: key, value, s =>
    match (FIND "LET" .undefined false s).1 with
    | none => .thrown .typeError s
    | some i =>
      let f := s.getAt i "LET"
      if isCallable f then
        (apply ev n f [k, value.headD .undefined] s).bind fun _ s1 =>
          initializer ev n key value.tail s1
      else
        match f with
        | .obj fields => if hasKey fields "bind" then .unsupported else .thrown .typeError s
        | _ => .thrown .typeError s

/-- The loop of `run` (lines 16-18): the element of index `i` is evaluated
with `init` absent and line `i + 1`. -/
def runLoop (ev : Evaluator) : List Val → Nat → St → Res (List Val)
  | [], _, s => .ok [] s
  | e :: rest, i, s =>
    (ev e none (.num (i + 1)) s).bind fun v s1 =>
      (runLoop ev rest (i + 1) s1).bind fun vs s2 => .ok (v :: vs) s2

/-- Line 13 of `run`: `if (init) init()`. -/
def runInit (ev : Evaluator) (n : Nat) (init : Option (List Val × List Val)) (s : St) : Res Val :=
  match init with
  | none => .ok .undefined s
  | some (key, value) => initializer ev n key value s

/-- Embeds `run(script, init)` (lines 7-25). -/
def run (ev : Evaluator) (n : Nat) (script : List Val) (init : Option (List Val × List Val))
    (s : St) : Res (List Val) :=
  let stackindex := s.stack.length
  (runInit ev n init s).bind fun _ s1 =>
    (runLoop ev script 0 s1).bind fun vs s2 =>
      .ok vs (s2.splice stackindex)

/-- Embeds `Object.keys(expression)[0]`, `undefined` for an object without keys. -/
def firstKey (fields : List (String × Val)) : Val :=
  match fields with
  | [] => .undefined
  | p :: _ => .str p.1

/-- Lines 63-69 of `EVAL`: evaluate the argument of the keyword `k`, make the
result an array, and append the `script` field, unevaluated, when the node
has one.  Appending to an array that came out of a keyword node (and so may
be shared with a frame) is outside the model. -/
def evalParams (ev : Evaluator) (fields : List (String × Val)) (k : String) (lineNumber : Val)
    (s : St) : Res (List Val) :=
  let argument := getProp fields k
  (ev argument none lineNumber s).bind fun value s1 =>
    match value with
    | .arr xs =>
      if hasKey fields "script" then
        match argument with
        | .arr _ => .ok (xs ++ [getProp fields "script"]) s1
        | _ => .unsupported
      else .ok xs s1
    | v => .ok (if hasKey fields "script" then [v, getProp fields "script"] else [v]) s1

/-- Lines 73-76 of `EVAL` when `match[keyword]` is not an own property of
the frame found but a member of `Object.prototype`: `toString` and
`toLocaleString`, applied to the interpreter object, return
`"[object Object]"`; the other members are outside the model. -/
def inheritedMember (k : String) (s : St) : Res Val :=
  if k == "toString" || k == "toLocaleString" then .ok (.str "[object Object]") s
  else .unsupported

/-- The keyword-node part of `EVAL` (lines 61-77) for an object with the
given fields. -/
def dispatch (ev : Evaluator) (n : Nat) (fields : List (String × Val)) (lineNumber : Val)
    (s : St) : Res Val :=
  let keyword := firstKey fields
  match toKey keyword with
  | none => .unsupported
  | some k =>
    (evalParams ev fields k lineNumber s).bind fun params s1 =>
      match FIND k lineNumber true s1 with
      | (some i, s2) =>
        if hasKey (s2.stack.getD i []) k then
          let found := s2.getAt i k
          if isCallable found then apply ev n found params s2 else .ok found s2
        else inheritedMember k s2
      | (none, s2) => .ok keyword s2

/-- Line 54: `expression.line ? expression.line : line`. -/
def lineOf (fields : List (String × Val)) (line : Val) : Val :=
  if truthy (getProp fields "line") then getProp fields "line" else line

/-- One level of `EVAL(expression, init, line)` (lines 49-78), with `ev` for
the recursive calls. -/
def evalStep (ev : Evaluator) (n : Nat) (expression : Val)
    (init : Option (List Val × List Val)) (line : Val) (s : St) : Res Val :=
  match expression with
  | .arr script => (run ev n script init s).bind fun vs s1 => .ok (.arr vs) s1
  | .obj fields => dispatch ev n fields (lineOf fields line) s
  | .typeError => .unsupported
  | literal => .ok literal s

/-- Embeds `EVAL(expression, init, line)` with recursion depth at most `fuel`. -/
def EVAL : Nat → Evaluator
  | 0 => fun _ _ _ _ => .timeout
  | fuel + 1 => evalStep (EVAL fuel) fuel

/-- Embeds `import(plugin)` (lines 27-31): push one frame per key of the plugin. -/
def importPlugin (plugin : List (String × Val)) (s : St) : St :=
  plugin.foldl (fun st p => st.push [(p.1, p.2)]) s

/-- The initial `Stack` (lines 80-246): one frame per built-in. -/
def builtins : List Frame :=
  [.LET, .FUNCTION, .RETURN, .SET, .INC, .ADD, .SUB, .MUL, .DIV, .MOD, .EQ, .NE, .GT, .LT,
   .GE, .LE, .AND, .OR, .PRINT, .FOR, .IF, .WHILE].map fun f => [(f.key, Val.native f)]

/-- The state of a freshly loaded interpreter. -/
def initial : St :=
  { stack := builtins, var := .unset, out := [] }

/-! ## Example programs -/

/-- The body of `double`: `[RETURN (MUL n 2)]`. -/
def doubleBody : Val :=
  .arr [.obj [("RETURN", .obj [("MUL", .arr [.obj [("n", .null)], .num 2])])]]

/-- The definition `FUNCTION double n [RETURN (MUL n 2)]`. -/
def defineDouble : Val :=
  .obj [("FUNCTION", .arr [.str "double", .str "n"]), ("script", doubleBody)]

/-- The function value that `defineDouble` binds to `double`. -/
def doubleClosure : Val := .closure [.str "n"] doubleBody

/-- The interpreter after `defineDouble` ran in the outermost scope. -/
def withDouble : St := initial.push [("double", doubleClosure)]

/-- The caller's script `[LET n 1 ; double 21 ; PRINT n]`. -/
def callerScript : List Val :=
  [.obj [("LET", .arr [.str "n", .num 1])],
   .obj [("double", .num 21)],
   .obj [("PRINT", .obj [("n", .null)])]]

/-- A script that pushes frames at several depths: a `LET`, a `FUNCTION`
definition, and a `FOR` whose body binds `y` to the result of calling
`double` (which executes `RETURN`) in every pass. -/
def scopesScript : List Val :=
  [.obj [("LET", .arr [.str "x", .num 5])],
   defineDouble,
   .obj [("FOR", .arr [.str "i", .num 1, .num 2, .null]),
         ("script", .arr [.obj [("LET", .arr [.str "y", .obj [("double", .obj [("i", .null)])]])]])]]

/-- The body of `FUNCTION deep [IF true [[FOR i 1 3 null [WHILE [[true] [RETURN 7]] ; PRINT "in loop"] ; PRINT "after loop"]] ; PRINT "after if"]`:
a body whose `RETURN 7` sits in a `WHILE` body inside a `FOR` body inside
an `IF` branch, each followed by a `PRINT` that must not run. -/
def deepBody : Val :=
  .arr [
    .obj [("IF", .bool true),
          ("script", .arr [.arr [
            .obj [("FOR", .arr [.str "i", .num 1, .num 3, .null]),
                  ("script", .arr [
                    .obj [("WHILE", .null),
                          ("script", .arr [.arr [.bool true],
                                           .arr [.obj [("RETURN", .num 7)]]])],
                    .obj [("PRINT", .str "in loop")]])],
            .obj [("PRINT", .str "after loop")]]])],
    .obj [("PRINT", .str "after if")]]

/-- The body of `outer`: `[LET r (double 21) ; RETURN (ADD r 1)]`; it calls
`double`, whose `RETURN` must end `double` only. -/
def outerBody : Val :=
  .arr [.obj [("LET", .arr [.str "r", .obj [("double", .num 21)]])],
        .obj [("RETURN", .obj [("ADD", .arr [.obj [("r", .null)], .num 1])])]]

/-- The body `[ADD 1 2]`, which completes without `RETURN`. -/
def sumBody : Val := .arr [.obj [("ADD", .arr [.num 1, .num 2])]]

/-- Example 1 of the specification: `[LET x 5 ; PRINT x]`. -/
def letPrintScript : List Val :=
  [.obj [("LET", .arr [.str "x", .num 5])], .obj [("PRINT", .obj [("x", .null)])]]

/-- A stack on which `x` is bound twice: `x = 1` (frame 22), `y = 2`
(frame 23), `x = 3` (frame 24). -/
def twoX : St :=
  ((initial.push [("x", .num 1)]).push [("y", .num 2)]).push [("x", .num 3)]

/-- The `FOR` node of example 3: `FOR i 1 3 null [PRINT i]`. -/
def forPrintArgs : List Val :=
  [.str "i", .num 1, .num 3, .null, .arr [.obj [("PRINT", .obj [("i", .null)])]]]

/-- What the body `[PRINT i]` does to a state in which the loop frame of
`i` is frame 22: it prints the value of `i`. -/
def printI (t : St) : St :=
  t.emit (.log ((toStr (t.getAt 22 "i")).getD ""))

/-- The arguments of `FOR i -9007199254740994 -9007199254740992 null [PRINT i]`:
from `-(2^53) - 2` to `-(2^53)`. -/
def forBelowArgs : List Val :=
  [.str "i", .num (-9007199254740994), .num (-9007199254740992), .null,
   .arr [.obj [("PRINT", .obj [("i", .null)])]]]

/-- The arguments of `FOR i 9007199254740992 9007199254740994 null []`:
from `2^53` to `2^53 + 2`, with an empty body. -/
def forAboveArgs : List Val :=
  [.str "i", .num 9007199254740992, .num 9007199254740994, .null, .arr []]

/-- The statement `PRINT i "," j`, the body `B` of the nested loops. -/
def printPair : Val :=
  .obj [("PRINT", .arr [.obj [("i", .null)], .str ",", .obj [("j", .null)]])]

/-- The node `FOR i 1 2 null [FOR j 1 2 null [PRINT i "," j]]`. -/
def nestedFor : Val :=
  .obj [("FOR", .arr [.str "i", .num 1, .num 2, .null]),
        ("script", .arr [
          .obj [("FOR", .arr [.str "j", .num 1, .num 2, .null]),
                ("script", .arr [printPair])]])]

/-- The body `[INC i]`. -/
def incBody : Val := .arr [.obj [("INC", .str "i")]]

/-- The arguments of `FOR i 1 5 null [INC i]`. -/
def forIncArgs : List Val :=
  [.str "i", .num 1, .num 5, .null, incBody]

/-- The loop frame of `i` on top of the built-ins, holding `c`, with the
global `variable` referring to it. -/
def loopAt (c : Int) : St :=
  { stack := builtins ++ [[("i", .num c)]], var := .onStack 22, out := [] }

/-- The statement `PRINT i`. -/
def printIStatement : Val := .obj [("PRINT", .obj [("i", .null)])]

/-- The node `FOR i 1 3 [PRINT i]`: no step argument at all. -/
def forNoStep : Val :=
  .obj [("FOR", .arr [.str "i", .num 1, .num 3]), ("script", .arr [printIStatement])]

/-- The node `FOR i 1 3 1 [PRINT i]`: the same loop with step 1. -/
def forStepOne : Val :=
  .obj [("FOR", .arr [.str "i", .num 1, .num 3, .num 1]), ("script", .arr [printIStatement])]

/-- Example 4 of the specification:
`IF (== 1 2) [[PRINT "yes"]] [[PRINT "no"]]`. -/
def ifExample : Val :=
  .obj [("IF", .obj [("==", .arr [.num 1, .num 2])]),
        ("script", .arr [.arr [.obj [("PRINT", .str "yes")]],
                         .arr [.obj [("PRINT", .str "no")]]])]

/-- A top-level script whose `RETURN 7` sits in a `WHILE` body inside a `FOR`
body inside an `IF` branch, with a `PRINT` after each of them. -/
def strayReturn : List Val :=
  [.obj [("PRINT", .str "start")],
   .obj [("IF", .bool true),
         ("script", .arr [.arr [
           .obj [("FOR", .arr [.str "i", .num 1, .num 3, .null]),
                 ("script", .arr [
                   .obj [("WHILE", .null),
                         ("script", .arr [.arr [.bool true],
                                          .arr [.obj [("RETURN", .num 7)]]])],
                   .obj [("PRINT", .str "in loop")]])],
           .obj [("PRINT", .str "after loop")]]])],
   .obj [("PRINT", .str "after if")]]

/-- The script `[FUNCTION f [INC y ; PRINT "after INC"] ; f ; PRINT "still running"]`,
in which `y` is bound nowhere. -/
def incInFunction : List Val :=
  [.obj [("FUNCTION", .str "f"),
         ("script", .arr [.obj [("INC", .str "y")], .obj [("PRINT", .str "after INC")]])],
   .obj [("f", .null)],
   .obj [("PRINT", .str "still running")]]

/-- The argument expression `LET x 1`, whose value is `undefined`. -/
def letArgument : Val := .obj [("LET", .arr [.str "x", .num 1])]

/-- The argument expression `ADD 1 2`, whose value is `3`. -/
def sumArgument : Val := .obj [("ADD", .arr [.num 1, .num 2])]

/-- The argument sequence a keyword receives for the argument value `v` of a
node with the further fields `rest`: `v`, then the `script` field when the
node has one. -/
def coerced (v : Val) (rest : List (String × Val)) : List Val :=
  if hasKey rest "script" then [v, getProp rest "script"] else [v]

/-- The function `f` of the dynamic-scope example: `FUNCTION f [RETURN x]`,
for the free name `x`. -/
def freeNameClosure (x : String) : Val :=
  .closure [] (.arr [.obj [("RETURN", .obj [(x, .null)])]])

/-- The state after `LET x 1` and `FUNCTION f [RETURN x]` ran in the
outermost scope. -/
def withFreeName : St :=
  (initial.push [("x", .num 1)]).push [("f", freeNameClosure "x")]

/-- A nested script that binds `x` to the sequence `[10, 20]` and calls `f`. -/
def rebindAndCall : List Val :=
  [.obj [("LET", .arr [.str "x", .arr [.num 10, .num 20]])], .obj [("f", .null)]]

/-- The call `f` without arguments. -/
def callF : Val := .obj [("f", .null)]

/-- The definition `FUNCTION f [RETURN x]`. -/
def defineF : Val :=
  .obj [("FUNCTION", .arr [.str "f"]),
        ("script", .arr [.obj [("RETURN", .obj [("x", .null)])]])]

/-- The state after `LET x a` and `FUNCTION f [RETURN x]` ran in the
outermost scope. -/
def afterDefinitions (a : Val) : St :=
  (initial.push [("x", a)]).push [("f", freeNameClosure "x")]

/-- The state inside a nested script that has executed `LET x b`. -/
def inNestedScript (a b : Val) : St :=
  (afterDefinitions a).push [("x", b)]

/-- The outer script `LET x a; FUNCTION f [RETURN x]; [LET x b; f]; f`. -/
def dynamicProgram (a b : Val) : List Val :=
  [.obj [("LET", .arr [.str "x", a])], defineF,
   .arr [.obj [("LET", .arr [.str "x", b])], callF], callF]

/-- Sequences and functions: the values that `EVAL` does not hand on as
they are when a name bound to them is used as an argument. -/
def isSequenceOrFunction : Val → Bool
  | .arr _ => true
  | .native _ => true
  | .closure _ _ => true
  | _ => false

/-- A nested script that binds `x` to the sequence `[10, 20]` and reads `x`. -/
def rebindAndRead : List Val :=
  [.obj [("LET", .arr [.str "x", .arr [.num 10, .num 20]])], .obj [("x", .null)]]

/-- The stack after `LET toString 1` and `LET y 2` in the outermost scope:
`toString` is bound in frame 22, and frame 23, which binds only `y`, lies
above it. -/
def inheritedShadow : St :=
  (initial.push [("toString", .num 1)]).push [("y", .num 2)]

/-- The nested script `[LET toString 5]`. -/
def rebindToString : List Val :=
  [.obj [("LET", .arr [.str "toString", .num 5])]]

/-- The name node `toString`. -/
def readToString : Val := .obj [("toString", .null)]

/-- The script `[LET toString 5 ; LET y 1 ; toString]`. -/
def letThenRead : List Val :=
  [.obj [("LET", .arr [.str "toString", .num 5])], .obj [("LET", .arr [.str "y", .num 1])],
   readToString]

/-- A plugin whose first entry has a name that `Object.prototype` has too. -/
def toStringPlugin : List (String × Val) :=
  [("toString", .str "plugin"), ("a", .num 1)]

/-! ## The iteration `FOR` is specified to perform -/

/-- One pass of a counting loop, as the specification words it: the body
(with effect `B` on the state) is evaluated once, then the loop variable
becomes `c + 1`. -/
def forPass (B : St → St) (name : String) (c : Int) (t : St) : St :=
  (B t).writeVariable name (.num (c + 1))

/-- Runs `k` passes in a row, for the values `c`, `c + 1`, ... of the loop
variable, in increasing order. -/
def forPasses (B : St → St) (name : String) : Nat → Int → St → St
  | 0, _, t => t
  | k + 1, c, t => forPasses B name k (c + 1) (forPass B name c t)

/-! ## Predicates used in the statements -/

/-- The integer lies in the range in which every integer is a double:
`|x| <= 2^53`. -/
def Exact (x : Int) : Prop := -9007199254740992 ≤ x ∧ x ≤ 9007199254740992

/-- The state of a counting loop at its test: the global `variable` is the
loop frame, which is frame `L`, the topmost frame, and binds `name` to the
integer `c`. -/
def AtTest (L : Nat) (name : String) (c : Int) (t : St) : Prop :=
  t.var = .onStack L ∧ t.stack.length = L + 1 ∧ t.stack.getD L [] = [(name, .num c)]

/-- In the pass that starts in state `t`, the body `script` completes
normally with the state `B t` (it does not `RETURN`), leaves the global
`variable` alone (it runs no other `FOR`), and leaves frame `L` as it is
(it does not write the loop variable). -/
def BodyPass (fuel : Nat) (script : List Val) (B : St → St) (L : Nat) (t : St) : Prop :=
  (∃ v, EVAL fuel (.arr script) none .undefined t = .ok v (B t))
    ∧ (B t).var = t.var
    ∧ (B t).stack.getD L [] = t.stack.getD L []


/-- Where a `RETURN` statement sits in a top-level script: directly in it,
or in the then-branch of an `IF`, in the body of a `FOR`, or in the body of
a `WHILE` of it, at any depth; `post` are the statements that follow. -/
inductive Nest where
  | direct (post : List Val)
  | inIF (inner : Nest) (post : List Val)
  | inFOR (inner : Nest) (post : List Val)
  | inWHILE (inner : Nest) (post : List Val)

/-- The script in which `RETURN V` sits as the nesting says. -/
def Nest.script (V : Val) : Nest → List Val
  | .direct post => .obj [("RETURN", V)] :: post
  | .inIF inner post =>
    .obj [("IF", .bool true), ("script", .arr [.arr (inner.script V)])] :: post
  | .inFOR inner post =>
    .obj [("FOR", .arr [.str "i", .num 1, .num 3, .null]),
          ("script", .arr (inner.script V))] :: post
  | .inWHILE inner post =>
    .obj [("WHILE", .null),
          ("script", .arr [.arr [.bool true], .arr (inner.script V)])] :: post

/-- The number of constructs around the `RETURN`. -/
def Nest.depth : Nest → Nat
  | .direct _ => 0
  | .inIF inner _ => inner.depth + 1
  | .inFOR inner _ => inner.depth + 1
  | .inWHILE inner _ => inner.depth + 1

/-- The nesting of `RETURN` in `strayReturn` after its first statement:
in a `WHILE` body in a `FOR` body in an `IF` branch. -/
def strayNest : Nest :=
  .inIF (.inFOR (.inWHILE (.direct []) [.obj [("PRINT", .str "in loop")]])
    [.obj [("PRINT", .str "after loop")]]) [.obj [("PRINT", .str "after if")]]

/-- The arithmetic, relational and logical keywords. -/
def pureKeyword : Native → Bool
  | .ADD | .SUB | .MUL | .DIV | .MOD => true
  | .EQ | .NE | .GT | .LT | .GE | .LE => true
  | .AND | .OR => true
  | _ => false

/-- The value an arithmetic, relational or logical keyword computes from
its two arguments (`none` outside the modelled conversions). -/
def binaryResult (f : Native) (A B : Val) : Option Val :=
  match f with
  | .AND => some (AND A B)
  | .OR => some (OR A B)
  | .EQ | .NE | .GT | .LT | .GE | .LE => compare f A B
  | _ => arith f A B

/-- The name `k` resolves, in state `s`, to a frame in which its value is `f`. -/
def Resolves (s : St) (k : String) (f : Val) : Prop :=
  ∃ i, scan s.stack k s.stack.length = some i ∧ s.getAt i k = f

/-- The keywords `RETURN`, `IF`, `FOR` and `WHILE` have their built-in
meaning in state `s`. -/
def ControlKeywords (s : St) : Prop :=
  Resolves s "RETURN" (.native .RETURN) ∧ Resolves s "IF" (.native .IF)
    ∧ Resolves s "FOR" (.native .FOR) ∧ Resolves s "WHILE" (.native .WHILE)

/-- The result `r`, obtained from state `s`, left the stack at least as long
as it was in `s` (a result without a final state satisfies it vacuously). -/
def StackGrows {α : Type} (s : St) : Res α → Prop
  | .ok _ s1 => s.stack.length ≤ s1.stack.length
  | .thrown _ s1 => s.stack.length ≤ s1.stack.length
  | .timeout => True
  | .unsupported => True

/-- Every call of the evaluator leaves the stack at least as long as before. -/
def EvGrows (ev : Evaluator) : Prop :=
  ∀ e init line s, StackGrows s (ev e init line s)

/-! ## State lemmas -/

@[simp] theorem push_stack (s : St) (f : Frame) : (s.push f).stack = s.stack ++ [f] := rfl

@[simp] theorem push_var (s : St) (f : Frame) : (s.push f).var = s.var := rfl

@[simp] theorem push_out (s : St) (f : Frame) : (s.push f).out = s.out := rfl

@[simp] theorem emit_stack (s : St) (o : Out) : (s.emit o).stack = s.stack := rfl

@[simp] theorem emit_var (s : St) (o : Out) : (s.emit o).var = s.var := rfl

@[simp] theorem emit_out (s : St) (o : Out) : (s.emit o).out = s.out ++ [o] := rfl

@[simp] theorem setAt_stack (s : St) (i : Nat) (k : String) (v : Val) :
    (s.setAt i k v).stack = s.stack.set i (setProp (s.stack.getD i []) k v) := rfl

@[simp] theorem setAt_var (s : St) (i : Nat) (k : String) (v : Val) :
    (s.setAt i k v).var = s.var := rfl

@[simp] theorem setAt_out (s : St) (i : Nat) (k : String) (v : Val) :
    (s.setAt i k v).out = s.out := rfl

@[simp] theorem splice_stack (s : St) (m : Nat) : (s.splice m).stack = s.stack.take m := rfl

@[simp] theorem splice_out (s : St) (m : Nat) : (s.splice m).out = s.out := rfl

theorem setAt_length (s : St) (i : Nat) (k : String) (v : Val) :
    (s.setAt i k v).stack.length = s.stack.length := by
  simp

theorem writeVariable_length (s : St) (k : String) (v : Val) :
    (s.writeVariable k v).stack.length = s.stack.length := by
  unfold St.writeVariable
  cases s.var <;> simp

theorem hasKey_of_getProp {f : List (String × Val)} {k : String}
    (h : getProp f k ≠ .undefined) : hasKey f k = true := by
  induction f with
  | nil => exact absurd rfl h
  | cons p rest ih =>
    unfold getProp at h
    unfold hasKey
    by_cases hp : (p.1 == k) = true
    · simp [hp]
    · simp only [hp, Bool.false_eq_true, if_false] at h
      have := ih h
      unfold hasKey at this
      simp [this]

theorem hasKey_of_callable {s : St} {i : Nat} {k : String}
    (h : isCallable (s.getAt i k) = true) : hasKey (s.stack.getD i []) k = true := by
  apply hasKey_of_getProp
  intro hu
  unfold St.getAt at h
  rw [hu] at h
  exact absurd h (by decide)

theorem inFrame_of_hasKey {f : Frame} {k : String} (h : hasKey f k = true) :
    inFrame f k = true := by
  simp [inFrame, h]

theorem inFrame_eq_hasKey {k : String} (hk : inherited k = false) (f : Frame) :
    inFrame f k = hasKey f k := by
  simp [inFrame, hk]

theorem FIND_stack (k : String) (line : Val) (b : Bool) (s : St) :
    (FIND k line b s).2.stack = s.stack := by
  unfold FIND
  cases scan s.stack k s.stack.length <;> cases b <;> simp

theorem FIND_silent (k : String) (line : Val) (s : St) : (FIND k line false s).2 = s := by
  unfold FIND
  cases scan s.stack k s.stack.length <;> simp

theorem FIND_some {k : String} {line : Val} {b : Bool} {s : St} {i : Nat}
    (h : (FIND k line b s).1 = some i) : FIND k line b s = (some i, s) := by
  unfold FIND at h ⊢
  cases hs : scan s.stack k s.stack.length with
  | none => rw [hs] at h; simp at h
  | some j => rw [hs] at h; simp at h; simp [h]

theorem FIND_none {k : String} {line : Val} {b : Bool} {s : St}
    (h : (FIND k line b s).1 = none) :
    FIND k line b s = (none, if b then s.emit (.error k line) else s) := by
  unfold FIND at h ⊢
  cases hs : scan s.stack k s.stack.length with
  | none => simp
  | some j => rw [hs] at h; simp at h

theorem scan_some {stack : List Frame} {k : String} {n i : Nat}
    (h : scan stack k n = some i) :
    i < n ∧ inFrame (stack.getD i []) k = true
      ∧ ∀ m, i < m → m < n → inFrame (stack.getD m []) k = false := by
  induction n with
  | zero => simp [scan] at h
  | succ n ih =>
    unfold scan at h
    by_cases hk : inFrame (stack.getD n []) k = true
    · simp only [hk, if_true, Option.some.injEq] at h
      subst h
      exact ⟨Nat.lt_succ_self _, hk, fun m h1 h2 => by omega⟩
    · simp only [hk] at h
      obtain ⟨h1, h2, h3⟩ := ih h
      refine ⟨by omega, h2, fun m hm hn => ?_⟩
      by_cases hmn : m = n
      · subst hmn; simpa using hk
      · exact h3 m hm (by omega)

theorem scan_none {stack : List Frame} {k : String} {n : Nat} :
    scan stack k n = none ↔ ∀ m, m < n → inFrame (stack.getD m []) k = false := by
  induction n with
  | zero => simp [scan]
  | succ n ih =>
    unfold scan
    by_cases hk : inFrame (stack.getD n []) k = true
    · simp only [hk, if_true]
      constructor
      · intro h; simp at h
      · intro h
        have := h n (Nat.lt_succ_self _)
        rw [hk] at this
        simp at this
    · simp only [hk, Bool.false_eq_true, if_false]
      rw [ih]
      constructor
      · intro h m hm
        by_cases hmn : m = n
        · subst hmn; simpa using hk
        · exact h m (by omega)
      · intro h m hm
        exact h m (by omega)

theorem scan_of_top {stack : List Frame} {k : String} {n i : Nat}
    (hi : i < n) (hk : inFrame (stack.getD i []) k = true)
    (hab : ∀ m, i < m → m < n → inFrame (stack.getD m []) k = false) :
    scan stack k n = some i := by
  cases hs : scan stack k n with
  | none =>
    have := (scan_none.mp hs) i hi
    rw [hk] at this
    simp at this
  | some a =>
    obtain ⟨h1, h2, h3⟩ := scan_some hs
    rcases Nat.lt_trichotomy a i with h | h | h
    · have := h3 i h hi
      rw [hk] at this
      simp at this
    · rw [h]
    · have := hab a h h1
      rw [h2] at this
      simp at this

/-- The function `scan` depends on the frames only through which names they contain. -/
theorem scan_congr {st1 st2 : List Frame} {k : String} {n : Nat}
    (h : ∀ m, m < n → inFrame (st1.getD m []) k = inFrame (st2.getD m []) k) :
    scan st1 k n = scan st2 k n := by
  induction n with
  | zero => simp [scan]
  | succ n ih =>
    unfold scan
    rw [h n (Nat.lt_succ_self _), ih (fun m hm => h m (by omega))]

/-! ## The stack never shrinks during an evaluation -/

theorem stackGrows_of_le {α : Type} {s0 s : St} {r : Res α}
    (h : s0.stack.length ≤ s.stack.length) (hr : StackGrows s r) : StackGrows s0 r := by
  cases r <;> simp_all [StackGrows] <;> omega

theorem stackGrows_bind {α β : Type} {s : St} {r : Res α} {k : α → St → Res β}
    (hr : StackGrows s r)
    (hk : ∀ a s1, s.stack.length ≤ s1.stack.length → StackGrows s1 (k a s1)) :
    StackGrows s (r.bind k) := by
  cases r with
  | ok a s1 => exact stackGrows_of_le hr (hk a s1 hr)
  | thrown v s1 => exact hr
  | timeout => trivial
  | unsupported => trivial

theorem stackGrows_ofOption {α : Type} (o : Option α) (s : St) :
    StackGrows s (Res.ofOption o s) := by
  cases o <;> simp [Res.ofOption, StackGrows]

theorem LET_grows (key value : Val) (s : St) : StackGrows s (LET key value s) := by
  unfold LET
  cases toKey key with
  | none => trivial
  | some k =>
    simp only
    split
    · split <;> simp [StackGrows]
    · simp [StackGrows]

theorem FUNCTION_grows (args : List Val) (s : St) : StackGrows s (FUNCTION args s) := by
  unfold FUNCTION
  cases toKey (arg args 0) with
  | none => trivial
  | some k =>
    simp only
    split <;> simp [StackGrows]

theorem assign_grows (s : St) (i : Nat) (k : String) (value : Val) :
    StackGrows s (assign s i k value) := by
  unfold assign
  split
  · split <;> simp [StackGrows]
  · simp [StackGrows]

theorem SET_grows (key value : Val) (s : St) : StackGrows s (SET key value s) := by
  unfold SET
  cases toKey key with
  | none => trivial
  | some k =>
    simp only
    cases (FIND k .undefined false s).1 with
    | some i => exact assign_grows s i k value
    | none =>
      simp only
      cases (FIND k .undefined false (s.push [(k, value)])).1 with
      | none => simp [StackGrows]
      | some i => exact stackGrows_of_le (by simp) (assign_grows _ i k value)

theorem INC_grows (key : Val) (s : St) : StackGrows s (INC key s) := by
  unfold INC
  cases toKey key with
  | none => trivial
  | some k =>
    simp only
    cases (FIND k .undefined false s).1 with
    | none => simp [StackGrows]
    | some i =>
      simp only
      split
      · trivial
      · exact assign_grows s i k _

theorem PRINT_grows (arguments : List Val) (s : St) : StackGrows s (PRINT arguments s) := by
  unfold PRINT
  cases printText arguments "" <;> simp [StackGrows]

theorem forLoop_grows {ev : Evaluator} (hev : EvGrows ev) (key : String)
    (endv step script : Val) (n : Nat) (s : St) :
    StackGrows s (forLoop ev key endv step script n s) := by
  induction n generalizing s with
  | zero => simp [forLoop, StackGrows]
  | succ n ih =>
    unfold forLoop
    cases s.readVariable key with
    | none => trivial
    | some current =>
      simp only
      cases relational (fun x y => decide (x ≤ y)) current endv with
      | none => trivial
      | some test =>
        simp only
        split
        · refine stackGrows_bind (hev _ _ _ _) ?_
          intro _ s1 _
          cases s1.readVariable key with
          | none => trivial
          | some v =>
            simp only
            cases jsAdd v (if truthy step then step else .num 1) with
            | none => trivial
            | some w =>
              exact stackGrows_of_le (by rw [writeVariable_length]) (ih _)
        · simp [StackGrows]

theorem FOR_grows {ev : Evaluator} (hev : EvGrows ev) (n : Nat)
    (key start endv step script : Val) (s : St) :
    StackGrows s (FOR ev n key start endv step script s) := by
  unfold FOR
  cases toKey key with
  | none => trivial
  | some k =>
    simp only
    exact stackGrows_of_le (by simp [forStart]) (forLoop_grows hev _ _ _ _ _ _)

theorem IF_grows {ev : Evaluator} (hev : EvGrows ev) (condition script : Val) (s : St) :
    StackGrows s (IF ev condition script s) := by
  unfold IF
  split
  · rcases index script 0 with _ | _ | e
    · trivial
    · simp [StackGrows]
    · exact stackGrows_bind (hev _ _ _ _) (fun _ _ _ => by simp [StackGrows])
  · rcases index script 1 with _ | _ | e
    · trivial
    · simp [StackGrows]
    · simp only
      split
      · exact stackGrows_bind (hev _ _ _ _) (fun _ _ _ => by simp [StackGrows])
      · simp [StackGrows]

theorem whileLoop_grows {ev : Evaluator} (hev : EvGrows ev) (script : Val) (n : Nat) (s : St) :
    StackGrows s (whileLoop ev script n s) := by
  induction n generalizing s with
  | zero => simp [whileLoop, StackGrows]
  | succ n ih =>
    unfold whileLoop
    rcases whileCondition script with _ | _ | c
    · trivial
    · simp [StackGrows]
    · refine stackGrows_bind (hev _ _ _ _) ?_
      intro test s1 _
      split
      · rcases index script 1 with _ | _ | body
        · trivial
        · simp [StackGrows]
        · exact stackGrows_bind (hev _ _ _ _) (fun _ s2 _ => ih s2)
      · simp [StackGrows]

theorem userFunction_grows {ev : Evaluator} (hev : EvGrows ev) (params : List Val)
    (script : Val) (arguments : List Val) (s : St) :
    StackGrows s (userFunction ev params script arguments s) := by
  unfold userFunction
  have h := hev script (some (params, arguments)) .undefined s
  cases hr : ev script (some (params, arguments)) .undefined s <;>
    simp_all [StackGrows]

theorem apply_grows {ev : Evaluator} (hev : EvGrows ev) (n : Nat) (f : Val)
    (params : List Val) (s : St) : StackGrows s (apply ev n f params s) := by
  cases f with
  | native f =>
    cases f <;> simp only [apply]
    case LET => exact LET_grows _ _ _
    case FUNCTION => exact FUNCTION_grows _ _
    case RETURN => simp [RETURN, StackGrows]
    case SET => exact SET_grows _ _ _
    case INC => exact INC_grows _ _
    case AND => simp [StackGrows]
    case OR => simp [StackGrows]
    case PRINT => exact PRINT_grows _ _
    case FOR => exact FOR_grows hev _ _ _ _ _ _ _
    case IF => exact IF_grows hev _ _ _
    case WHILE => exact whileLoop_grows hev _ _ _
    all_goals exact stackGrows_ofOption _ _
  | closure ps script => exact userFunction_grows hev _ _ _ _
  | _ => simp [apply, StackGrows]

theorem initializer_grows {ev : Evaluator} (hev : EvGrows ev) (n : Nat)
    (key value : List Val) (s : St) : StackGrows s (initializer ev n key value s) := by
  induction key generalizing value s with
  | nil => simp [initializer, StackGrows]
  | cons k key ih =>
    unfold initializer
    cases (FIND "LET" .undefined false s).1 with
    | none => simp [StackGrows]
    | some i =>
      simp only
      split
      · exact stackGrows_bind (apply_grows hev _ _ _ _) (fun _ s1 _ => ih _ s1)
      · split
        · split <;> simp [StackGrows]
        · simp [StackGrows]

theorem runLoop_grows {ev : Evaluator} (hev : EvGrows ev) (script : List Val) (i : Nat)
    (s : St) : StackGrows s (runLoop ev script i s) := by
  induction script generalizing i s with
  | nil => simp [runLoop, StackGrows]
  | cons e rest ih =>
    unfold runLoop
    refine stackGrows_bind (hev _ _ _ _) ?_
    intro v s1 _
    exact stackGrows_bind (ih _ s1) (fun _ _ _ => by simp [StackGrows])

theorem runInit_grows {ev : Evaluator} (hev : EvGrows ev) (n : Nat)
    (init : Option (List Val × List Val)) (s : St) : StackGrows s (runInit ev n init s) := by
  cases init with
  | none => simp [runInit, StackGrows]
  | some kv => exact initializer_grows hev _ _ _ _

/-- When `run` returns normally the stack has exactly the length it had at
the call, for any evaluator that never shrinks the stack. -/
theorem run_ok_length {ev : Evaluator} (hev : EvGrows ev) (n : Nat) (script : List Val)
    (init : Option (List Val × List Val)) (s s1 : St) (vs : List Val)
    (h : run ev n script init s = .ok vs s1) : s1.stack.length = s.stack.length := by
  unfold run at h
  have h0 := runInit_grows hev n init s
  cases hi : runInit ev n init s with
  | ok a t =>
    rw [hi] at h h0
    simp only [Res.bind] at h
    have h2 := runLoop_grows hev script 0 t
    cases hr : runLoop ev script 0 t with
    | ok ws t2 =>
      rw [hr] at h h2
      simp only [Res.ok.injEq] at h
      simp only [StackGrows] at h0 h2
      rw [← h.2]
      simp only [splice_stack, List.length_take]
      omega
    | thrown v t2 => rw [hr] at h; simp at h
    | timeout => rw [hr] at h; simp at h
    | unsupported => rw [hr] at h; simp at h
  | thrown v t => rw [hi] at h; simp [Res.bind] at h
  | timeout => rw [hi] at h; simp [Res.bind] at h
  | unsupported => rw [hi] at h; simp [Res.bind] at h

theorem run_grows {ev : Evaluator} (hev : EvGrows ev) (n : Nat) (script : List Val)
    (init : Option (List Val × List Val)) (s : St) :
    StackGrows s (run ev n script init s) := by
  cases hr : run ev n script init s with
  | ok vs s1 =>
    simp only [StackGrows]
    exact Nat.le_of_eq (run_ok_length hev n script init s s1 vs hr).symm
  | thrown v s1 =>
    unfold run at hr
    have h0 := runInit_grows hev n init s
    cases hi : runInit ev n init s with
    | ok a t =>
      rw [hi] at hr h0
      simp only [Res.bind] at hr
      have h2 := runLoop_grows hev script 0 t
      cases hl : runLoop ev script 0 t with
      | ok ws t2 => rw [hl] at hr; simp at hr
      | thrown w t2 =>
        rw [hl] at hr h2
        simp only [Res.thrown.injEq] at hr
        simp only [StackGrows] at h0 h2 ⊢
        rw [← hr.2]
        omega
      | timeout => rw [hl] at hr; simp at hr
      | unsupported => rw [hl] at hr; simp at hr
    | thrown w t =>
      rw [hi] at hr h0
      simp only [Res.bind, Res.thrown.injEq] at hr
      simp only [StackGrows] at h0 ⊢
      rw [← hr.2]
      exact h0
    | timeout => rw [hi] at hr; simp [Res.bind] at hr
    | unsupported => rw [hi] at hr; simp [Res.bind] at hr
  | timeout => trivial
  | unsupported => trivial

theorem evalParams_grows {ev : Evaluator} (hev : EvGrows ev) (fields : List (String × Val))
    (k : String) (lineNumber : Val) (s : St) :
    StackGrows s (evalParams ev fields k lineNumber s) := by
  unfold evalParams
  refine stackGrows_bind (hev _ _ _ _) ?_
  intro value s1 _
  split
  · split
    · split <;> simp [StackGrows]
    · simp [StackGrows]
  · simp [StackGrows]

theorem inheritedMember_grows (k : String) (s : St) : StackGrows s (inheritedMember k s) := by
  unfold inheritedMember
  split <;> simp [StackGrows]

theorem dispatch_grows {ev : Evaluator} (hev : EvGrows ev) (n : Nat)
    (fields : List (String × Val)) (lineNumber : Val) (s : St) :
    StackGrows s (dispatch ev n fields lineNumber s) := by
  unfold dispatch
  simp only
  split
  · trivial
  · rename_i k _
    refine stackGrows_bind (evalParams_grows hev _ _ _ _) ?_
    intro params s1 _
    have hF := FIND_stack k lineNumber true s1
    split
    · rename_i i s2 hf
      rw [hf] at hF
      simp only at hF
      have hle : s1.stack.length ≤ s2.stack.length := by rw [hF]
      refine stackGrows_of_le hle ?_
      split
      · split
        · exact apply_grows hev _ _ _ _
        · simp [StackGrows]
      · exact inheritedMember_grows k s2
    · rename_i s2 hf
      rw [hf] at hF
      simp only at hF
      simp [StackGrows, hF]

theorem evalStep_grows {ev : Evaluator} (hev : EvGrows ev) (n : Nat) : EvGrows (evalStep ev n) := by
  intro e init line s
  cases e with
  | arr script =>
    simp only [evalStep]
    have h := run_grows hev n script init s
    cases hr : run ev n script init s <;> simp_all [Res.bind, StackGrows]
  | obj fields =>
    simp only [evalStep]
    exact dispatch_grows hev _ _ _ _
  | _ => simp [evalStep, StackGrows]

theorem EVAL_grows (fuel : Nat) : EvGrows (EVAL fuel) := by
  induction fuel with
  | zero => intro e init line s; simp [EVAL, StackGrows]
  | succ fuel ih => exact evalStep_grows ih fuel

/-! ## Scope discipline of `run` -/

/-- C1: whenever `run(script, init)` returns normally, the binding stack has
the length it had before the call, for every state, every script and every
bound on recursion depth and loop iterations. -/
theorem run_restores_stack_length (fuel n : Nat) (script : List Val)
    (init : Option (List Val × List Val)) (s s1 : St) (vs : List Val)
    (h : run (EVAL fuel) n script init s = .ok vs s1) :
    s1.stack.length = s.stack.length :=
  run_ok_length (EVAL_grows fuel) n script init s s1 vs h

/-- Instance of `run_restores_stack_length`: `scopesScript` pushes `x`,
`double`, the loop frame `i`, and in each pass `y` and the parameter frame
`n`; the run returns with the 22 built-in frames only. -/
theorem run_restores_stack_length_witness :
    run (EVAL 12) 12 scopesScript none initial
        = .ok [.undefined, .undefined, .undefined]
            { stack := builtins, var := .detached [("i", .num 3)], out := [] }
      ∧ builtins.length = initial.stack.length :=
  ⟨rfl, run_restores_stack_length 12 12 scopesScript none initial
    { stack := builtins, var := .detached [("i", .num 3)], out := [] }
    [.undefined, .undefined, .undefined] rfl⟩

/-- C2 (the code at the failing input): calling `double 21` yields `42`, and
the frame binding the parameter `n`, pushed by the initializer inside the
body's `run`, is still on the stack after the invocation: the stack is one
frame longer than before the call.  The caller sees the leftover frame: in
`[LET n 1 ; double 21 ; PRINT n]` the `PRINT` outputs `21`, the parameter,
not the caller's own `n = 1`. -/
theorem double_call_leaves_parameter_frame :
    EVAL 8 (.obj [("double", .num 21)]) none .undefined withDouble
        = .ok (.num 42) (withDouble.push [("n", .num 21)])
      ∧ (withDouble.push [("n", .num 21)]).stack.length = withDouble.stack.length + 1
      ∧ run (EVAL 8) 8 callerScript none withDouble
        = .ok [.undefined, .num 42, .undefined] { withDouble with out := [.log "21"] } :=
  ⟨rfl, rfl, rfl⟩

/-! ## Non-local return -/

theorem runLoop_append_thrown {ev : Evaluator} (pre post : List Val) (e : Val) (i : Nat)
    (s s1 s2 : St) (vs : List Val) (V : Val)
    (hpre : runLoop ev pre i s = .ok vs s1)
    (he : ev e none (.num (((i + pre.length : Nat) : Int) + 1)) s1 = .thrown V s2) :
    runLoop ev (pre ++ e :: post) i s = .thrown V s2 := by
  induction pre generalizing i s vs with
  | nil =>
    simp only [runLoop, Res.ok.injEq] at hpre
    simp only [List.length_nil, Nat.add_zero] at he
    rw [← hpre.2] at he
    simp [runLoop, he, Res.bind]
  | cons p pre ih =>
    simp only [runLoop, List.cons_append] at hpre ⊢
    cases hp : ev p none (.num ((i : Int) + 1)) s with
    | ok v t =>
      rw [hp] at hpre
      simp only [Res.bind] at hpre ⊢
      cases hrest : runLoop ev pre (i + 1) t with
      | ok ws t2 =>
        rw [hrest] at hpre
        simp only [Res.ok.injEq] at hpre
        have he2 : ev e none (.num ((((i + 1) + pre.length : Nat) : Int) + 1)) s1 = .thrown V s2 := by
          have : i + 1 + pre.length = i + (p :: pre).length := by simp; omega
          rw [this]
          exact he
        rw [hpre.2] at hrest
        have h := ih (i + 1) t ws hrest he2
        simp only [List.append_eq] at h ⊢
        rw [h]
      | thrown w t2 => rw [hrest] at hpre; simp at hpre
      | timeout => rw [hrest] at hpre; simp at hpre
      | unsupported => rw [hrest] at hpre; simp at hpre
    | thrown w t => rw [hp] at hpre; simp [Res.bind] at hpre
    | timeout => rw [hp] at hpre; simp [Res.bind] at hpre
    | unsupported => rw [hp] at hpre; simp [Res.bind] at hpre

/-- C3: `RETURN value` throws `value`; the throw passes unchanged, with the
state it was raised in, through every construct that can enclose it inside
a function body, and is turned into the result by the function invocation:
(1) the `RETURN` keyword throws its first argument;
(2) a script in which the statements before `e` complete and `e` throws
    throws the same, whatever statements `post` follow (none is evaluated,
    and `run` does not catch);
(3) `IF` throws what its chosen branch throws, (4) `FOR` what its body
    throws in a pass, (5) `WHILE` what its body throws in a pass;
(6) a keyword node throws what its keyword implementation throws, and
(7) what the evaluation of its argument throws;
(8) the invocation of a user-defined function whose body throws `V`
    completes normally with the value `V`, in the state of the throw, so
    the caller of the function continues. -/
theorem return_unwinds_to_function_call (fuel n : Nat) :
    (∀ (V : Val) (rest : List Val) (s : St),
        apply (EVAL fuel) n (.native .RETURN) (V :: rest) s = .thrown V s)
    ∧ (∀ (pre post : List Val) (e : Val) (init : Option (List Val × List Val)) (line u V : Val)
        (s s0 s1 s2 : St) (vs : List Val),
        runInit (EVAL fuel) fuel init s = .ok u s0 →
        runLoop (EVAL fuel) pre 0 s0 = .ok vs s1 →
        EVAL fuel e none (.num ((pre.length : Int) + 1)) s1 = .thrown V s2 →
        EVAL (fuel + 1) (.arr (pre ++ e :: post)) init line s = .thrown V s2)
    ∧ (∀ (condition script e V : Val) (s s2 : St),
        index script (if truthy condition then 0 else 1) = some (some e) →
        (truthy condition = true ∨ truthy e = true) →
        EVAL fuel e none .undefined s = .thrown V s2 →
        IF (EVAL fuel) condition script s = .thrown V s2)
    ∧ (∀ (key : String) (endv step script current V : Val) (m : Nat) (s s2 : St),
        s.readVariable key = some current →
        relational (fun x y => decide (x ≤ y)) current endv = some (.bool true) →
        EVAL fuel script none .undefined s = .thrown V s2 →
        forLoop (EVAL fuel) key endv step script (m + 1) s = .thrown V s2)
    ∧ (∀ (script c test body V : Val) (m : Nat) (s s1 s2 : St),
        whileCondition script = some (some c) →
        EVAL fuel c none .undefined s = .ok test s1 →
        truthy test = true →
        index script 1 = some (some body) →
        EVAL fuel body none .undefined s1 = .thrown V s2 →
        whileLoop (EVAL fuel) script (m + 1) s = .thrown V s2)
    ∧ (∀ (k : String) (a : Val) (rest : List (String × Val)) (init : Option (List Val × List Val))
        (line V : Val) (params : List Val) (i : Nat) (s s1 s2 : St),
        evalParams (EVAL fuel) ((k, a) :: rest) k (lineOf ((k, a) :: rest) line) s
          = .ok params s1 →
        (FIND k (lineOf ((k, a) :: rest) line) true s1).1 = some i →
        isCallable (s1.getAt i k) = true →
        apply (EVAL fuel) fuel (s1.getAt i k) params s1 = .thrown V s2 →
        EVAL (fuel + 1) (.obj ((k, a) :: rest)) init line s = .thrown V s2)
    ∧ (∀ (k : String) (a : Val) (rest : List (String × Val)) (init : Option (List Val × List Val))
        (line V : Val) (s s2 : St),
        EVAL fuel a none (lineOf ((k, a) :: rest) line) s = .thrown V s2 →
        EVAL (fuel + 1) (.obj ((k, a) :: rest)) init line s = .thrown V s2)
    ∧ (∀ (params : List Val) (script : Val) (arguments : List Val) (V : Val) (s s2 : St),
        EVAL fuel script (some (params, arguments)) .undefined s = .thrown V s2 →
        apply (EVAL fuel) n (.closure params script) arguments s = .ok V s2) := by
  refine ⟨?_, ?_, ?_, ?_, ?_, ?_, ?_, ?_⟩
  · intro V rest s
    simp [apply, RETURN, arg]
  · intro pre post e init line u V s s0 s1 s2 vs hi hpre he
    have h := runLoop_append_thrown pre post e 0 s0 s1 s2 vs V hpre (by simpa using he)
    simp [EVAL, evalStep, run, hi, h, Res.bind]
  · intro condition script e V s s2 hidx hc he
    unfold IF
    by_cases hcond : truthy condition = true
    · simp only [hcond, if_true] at hidx ⊢
      simp [hidx, he, Res.bind]
    · have hf : truthy condition = false := by simpa using hcond
      have hte : truthy e = true := by
        rcases hc with h | h
        · exact absurd h hcond
        · exact h
      simp only [hf, Bool.false_eq_true, if_false] at hidx ⊢
      simp [hidx, hte, he, Res.bind]
  · intro key endv step script current V m s s2 hr hrel he
    unfold forLoop
    simp [hr, hrel, truthy, he, Res.bind]
  · intro script c test body V m s s1 s2 hc hev ht hb he
    unfold whileLoop
    simp [hc, hev, ht, hb, he, Res.bind]
  · intro k a rest init line V params i s s1 s2 hp hf hcall happ
    have hF := FIND_some hf
    have hown : hasKey (s1.stack.getD i []) k = true := hasKey_of_callable hcall
    simp only [EVAL, evalStep]
    simp only [dispatch, firstKey, toKey, toStr, hp, Res.bind, hF, hown, if_true, hcall, happ]
  · intro k a rest init line V s s2 he
    simp only [EVAL, evalStep]
    have hg : getProp ((k, a) :: rest) k = a := by simp [getProp]
    simp [dispatch, firstKey, toKey, toStr, evalParams, hg, he, Res.bind]
  · intro params script arguments V s s2 h
    simp [apply, userFunction, h]

/-- Instances of `return_unwinds_to_function_call`: `double 21` yields `42`;
`RETURN 7` inside `WHILE` inside `FOR` inside `IF` ends the invocation with
`7` and none of the three `PRINT`s after it has run (no output); `outer`,
which calls `double`, continues after the call and returns `43`. -/
theorem return_unwinds_to_function_call_witness :
    apply (EVAL 7) 7 doubleClosure [.num 21] initial
        = .ok (.num 42) (initial.push [("n", .num 21)])
      ∧ apply (EVAL 12) 12 (.closure [] deepBody) [] initial
        = .ok (.num 7) { stack := builtins ++ [[("i", .num 1)]], var := .onStack 22, out := [] }
      ∧ apply (EVAL 12) 12 (.closure [] outerBody) [] withDouble
        = .ok (.num 43) (withDouble.push [("r", .num 42)]) :=
  ⟨(return_unwinds_to_function_call 7 7).2.2.2.2.2.2.2 [.str "n"] doubleBody [.num 21]
      (.num 42) initial (initial.push [("n", .num 21)]) rfl,
   (return_unwinds_to_function_call 12 12).2.2.2.2.2.2.2 [] deepBody [] (.num 7) initial
      { stack := builtins ++ [[("i", .num 1)]], var := .onStack 22, out := [] } rfl,
   (return_unwinds_to_function_call 12 12).2.2.2.2.2.2.2 [] outerBody [] (.num 43) withDouble
      (withDouble.push [("r", .num 42)]) rfl⟩

/-! ## Falling off the end of a function body -/

/-- C4: when the body of a user-defined function completes without throwing,
whatever value `v` its evaluation produced, the invocation yields
`undefined`, in the state the body left. -/
theorem fallthrough_returns_undefined (fuel n : Nat) (params : List Val) (script : Val)
    (arguments : List Val) (v : Val) (s s1 : St)
    (h : EVAL fuel script (some (params, arguments)) .undefined s = .ok v s1) :
    apply (EVAL fuel) n (.closure params script) arguments s = .ok .undefined s1 := by
  simp [apply, userFunction, h]

/-- Instance of `fallthrough_returns_undefined`: the body `[ADD 1 2]`
evaluates to the sequence `[3]`, and the invocation yields `undefined`. -/
theorem fallthrough_returns_undefined_witness :
    EVAL 5 sumBody (some ([], [])) .undefined initial = .ok (.arr [.num 3]) initial
      ∧ apply (EVAL 5) 5 (.closure [] sumBody) [] initial = .ok .undefined initial :=
  ⟨rfl, fallthrough_returns_undefined 5 5 [] sumBody [] (.arr [.num 3]) initial initial rfl⟩

/-! ## Lookup order -/

/-- What `FIND` computes: it leaves the stack (and the global `variable`)
as it is; it returns the frame of index `i` exactly when `i` is the
greatest index of a frame with `keyword in frame`; and it returns `null`
exactly when `keyword in frame` holds for no frame of the stack. -/
theorem FIND_topmost_containing (keyword : String) (lineNumber : Val) (showError : Bool)
    (s : St) :
    (FIND keyword lineNumber showError s).2.stack = s.stack
      ∧ (FIND keyword lineNumber showError s).2.var = s.var
      ∧ (∀ i, (FIND keyword lineNumber showError s).1 = some i ↔
          (i < s.stack.length ∧ inFrame (s.stack.getD i []) keyword = true
            ∧ ∀ m, i < m → m < s.stack.length → inFrame (s.stack.getD m []) keyword = false))
      ∧ ((FIND keyword lineNumber showError s).1 = none ↔
          ∀ m, m < s.stack.length → inFrame (s.stack.getD m []) keyword = false) := by
  refine ⟨FIND_stack _ _ _ _, ?_, ?_, ?_⟩
  · unfold FIND
    cases scan s.stack keyword s.stack.length <;> cases showError <;> simp
  · intro i
    have hfst : (FIND keyword lineNumber showError s).1 = scan s.stack keyword s.stack.length := by
      unfold FIND
      cases scan s.stack keyword s.stack.length <;> simp
    rw [hfst]
    constructor
    · intro h; exact scan_some h
    · intro h; exact scan_of_top h.1 h.2.1 h.2.2
  · have hfst : (FIND keyword lineNumber showError s).1 = scan s.stack keyword s.stack.length := by
      unfold FIND
      cases scan s.stack keyword s.stack.length <;> simp
    rw [hfst]
    exact scan_none

/-- C7 (the code at the failing input): in the freshly loaded interpreter no
frame binds `constructor` (nor `x`), and `FIND("x")` returns `null`
accordingly; but `FIND("constructor", 1, true)` returns frame 21, the
topmost frame (that of `WHILE`), and logs nothing: the test
`keyword in this.Stack[i]` of line 37 also holds for the names a frame
inherits from `Object.prototype`. -/
theorem FIND_returns_frame_without_the_name :
    (∀ f ∈ initial.stack, hasKey f "constructor" = false)
      ∧ (∀ f ∈ initial.stack, hasKey f "x" = false)
      ∧ FIND "x" (.num 1) false initial = (none, initial)
      ∧ FIND "constructor" (.num 1) true initial = (some 21, initial)
      ∧ initial.stack.getD 21 [] = [("WHILE", .native .WHILE)] :=
  ⟨by decide, by decide, rfl, rfl, rfl⟩

/-! ## Lists of frames and properties -/

theorem getD_set (l : List Frame) (i m : Nat) (a : Frame) :
    (l.set i a).getD m [] = if m = i ∧ i < l.length then a else l.getD m [] := by
  simp only [List.getD_eq_getElem?_getD, List.getElem?_set]
  by_cases h : i = m
  · subst h
    by_cases h2 : i < l.length
    · simp [h2]
    · simp [h2, List.getElem?_eq_none (Nat.le_of_not_lt h2)]
  · have : ¬ m = i := fun e => h e.symm
    simp [h, this]

theorem getD_append_left (l : List Frame) (a : Frame) (m : Nat) (h : m < l.length) :
    (l ++ [a]).getD m [] = l.getD m [] := by
  simp [List.getD_eq_getElem?_getD, List.getElem?_append_left h]

theorem getD_append_length (l : List Frame) (a : Frame) :
    (l ++ [a]).getD l.length [] = a := by
  simp [List.getD_eq_getElem?_getD]

theorem getD_take (l : List Frame) (m n : Nat) (h : m < n) :
    (l.take n).getD m [] = l.getD m [] := by
  simp [List.getD_eq_getElem?_getD, List.getElem?_take, h]

theorem hasKey_cons (p : String × Val) (f : List (String × Val)) (k : String) :
    hasKey (p :: f) k = (p.1 == k || hasKey f k) := by
  simp [hasKey]

theorem hasKey_setProp (f : List (String × Val)) (k : String) (v : Val) (key : String) :
    hasKey (setProp f k v) key = (hasKey f key || k == key) := by
  induction f with
  | nil => simp [setProp, hasKey]
  | cons p f ih =>
    unfold setProp
    by_cases hp : (p.1 == k) = true
    · have hpk : p.1 = k := by simpa using hp
      simp only [hp, if_true, hasKey_cons]
      rw [hpk]
      cases (k == key) <;> simp
    · have hp2 : (p.1 == k) = false := by simpa using hp
      simp only [hp2, Bool.false_eq_true, if_false, hasKey_cons, ih]
      cases (p.1 == key) <;> simp

theorem hasKey_setProp_of_hasKey (f : List (String × Val)) (k : String) (v : Val)
    (key : String) (h : hasKey f k = true) : hasKey (setProp f k v) key = hasKey f key := by
  rw [hasKey_setProp]
  by_cases hk : (k == key) = true
  · have : k = key := by simpa using hk
    subst this
    simp [h]
  · simp [hk]

theorem inFrame_setProp_of_inFrame (f : Frame) (k : String) (v : Val)
    (h : inFrame f k = true) : inFrame (setProp f k v) k = inFrame f k := by
  rw [h]
  unfold inFrame
  rw [hasKey_setProp]
  simp

theorem getProp_setProp_same (f : List (String × Val)) (k : String) (v : Val) :
    getProp (setProp f k v) k = v := by
  induction f with
  | nil => simp [setProp, getProp]
  | cons p f ih =>
    unfold setProp
    by_cases hp : (p.1 == k) = true
    · simp [hp, getProp]
    · simp [hp, getProp, ih]

theorem getProp_setProp_ne (f : List (String × Val)) (k : String) (v : Val) (x : String)
    (h : k ≠ x) : getProp (setProp f k v) x = getProp f x := by
  induction f with
  | nil => simp [setProp, getProp, h]
  | cons p f ih =>
    unfold setProp
    by_cases hp : (p.1 == k) = true
    · have hpk : p.1 = k := by simpa using hp
      have hpx : ¬ (p.1 == x) = true := by simp [hpk, h]
      simp [hp, getProp, hpx, h]
    · by_cases hpx : (p.1 == x) = true
      · simp [hp, getProp, hpx]
      · simp [hp, getProp, hpx, ih]

theorem FIND_fst (k : String) (line : Val) (b : Bool) (s : St) :
    (FIND k line b s).1 = scan s.stack k s.stack.length := by
  unfold FIND
  cases scan s.stack k s.stack.length <;> simp

/-! ## Keyword nodes whose arguments are literals -/

theorem splice_self (s : St) : s.splice s.stack.length = s := by
  unfold St.splice
  cases s with
  | mk stack var out =>
    cases var with
    | onStack i =>
      have : ¬ (stack.length ≤ i ∧ i < stack.length) := by omega
      simp [this]
    | unset => simp
    | detached f => simp

theorem EVAL_literal (fuel : Nat) (l : Val) (hl : isLiteral l = true)
    (init : Option (List Val × List Val)) (line : Val) (s : St) :
    EVAL (fuel + 1) l init line s = .ok l s := by
  cases l <;> simp_all [EVAL, evalStep, isLiteral]

theorem runLoop_literals (fuel : Nat) (lits : List Val) (hl : ∀ l ∈ lits, isLiteral l = true)
    (i : Nat) (s : St) : runLoop (EVAL (fuel + 1)) lits i s = .ok lits s := by
  induction lits generalizing i with
  | nil => rfl
  | cons l lits ih =>
    have h1 := EVAL_literal fuel l (hl l (by simp)) none (.num ((i : Int) + 1)) s
    have h2 := ih (fun m hm => hl m (by simp [hm])) (i + 1)
    simp [runLoop, h1, h2, Res.bind]

theorem EVAL_literals (fuel : Nat) (lits : List Val) (hl : ∀ l ∈ lits, isLiteral l = true)
    (line : Val) (s : St) : EVAL (fuel + 2) (.arr lits) none line s = .ok (.arr lits) s := by
  have e : EVAL (fuel + 2) = evalStep (EVAL (fuel + 1)) (fuel + 1) := rfl
  rw [e]
  simp only [evalStep, run, runInit, Res.bind, runLoop_literals fuel lits hl 0 s, splice_self]

/-- A keyword node whose argument is an array of literals: the arguments
evaluate to themselves, and the node is the dispatch on the keyword. -/
theorem EVAL_node_literals (fuel : Nat) (k : String) (lits : List Val)
    (hl : ∀ l ∈ lits, isLiteral l = true) (rest : List (String × Val))
    (init : Option (List Val × List Val)) (line : Val) (s : St) :
    EVAL (fuel + 3) (.obj ((k, .arr lits) :: rest)) init line s =
      match FIND k (lineOf ((k, .arr lits) :: rest) line) true s with
      | (some i, s2) =>
        if hasKey (s2.stack.getD i []) k then
          if isCallable (s2.getAt i k) then
            apply (EVAL (fuel + 2)) (fuel + 2) (s2.getAt i k)
              (if hasKey ((k, .arr lits) :: rest) "script"
                then lits ++ [getProp ((k, .arr lits) :: rest) "script"] else lits) s2
          else .ok (s2.getAt i k) s2
        else inheritedMember k s2
      | (none, s2) => .ok (.str k) s2 := by
  have hp : evalParams (EVAL (fuel + 2)) ((k, .arr lits) :: rest) k
      (lineOf ((k, .arr lits) :: rest) line) s
      = .ok (if hasKey ((k, .arr lits) :: rest) "script"
              then lits ++ [getProp ((k, .arr lits) :: rest) "script"] else lits) s := by
    have hg : getProp ((k, Val.arr lits) :: rest) k = .arr lits := by simp [getProp]
    unfold evalParams
    simp only [hg, EVAL_literals fuel lits hl, Res.bind]
    split <;> rfl
  have e : EVAL (fuel + 3) = evalStep (EVAL (fuel + 2)) (fuel + 2) := rfl
  rw [e]
  simp only [evalStep, dispatch, firstKey, toKey, toStr, hp, Res.bind]

/-- With recursion depth below 3 the evaluation of a keyword node with a
non-empty array of arguments runs out of fuel. -/
theorem EVAL_node_small (fuel : Nat) (hf : fuel < 3) (k : String) (l : Val) (lits : List Val)
    (rest : List (String × Val)) (init : Option (List Val × List Val)) (line : Val) (s : St) :
    EVAL fuel (.obj ((k, .arr (l :: lits)) :: rest)) init line s = .timeout := by
  have hg : getProp ((k, Val.arr (l :: lits)) :: rest) k = .arr (l :: lits) := by simp [getProp]
  rcases fuel with _ | _ | _ | f
  · rfl
  · simp [EVAL, evalStep, dispatch, firstKey, toKey, toStr, evalParams, hg, Res.bind]
  · simp [EVAL, evalStep, dispatch, firstKey, toKey, toStr, evalParams, hg, Res.bind, run,
      runInit, runLoop]
  · omega

@[simp] theorem arg_zero (a : Val) (l : List Val) : arg (a :: l) 0 = a := rfl

@[simp] theorem arg_one (a b : Val) (l : List Val) : arg (a :: b :: l) 1 = b := rfl

/-- The node `LET x w` with a literal `w`, where `LET` has its built-in meaning,
pushes the frame binding `x` to `w`. -/
theorem EVAL_LET_node (f : Nat) (x : String) (hx : x ≠ "__proto__") (w : Val)
    (hw : isLiteral w = true)
    (init : Option (List Val × List Val)) (line : Val) (s : St) (a : Nat)
    (hlet : scan s.stack "LET" s.stack.length = some a)
    (hnat : s.getAt a "LET" = .native .LET) :
    EVAL (f + 3) (.obj [("LET", .arr [.str x, w])]) init line s
      = .ok .undefined (s.push [(x, w)]) := by
  have hF : FIND "LET" (lineOf [("LET", Val.arr [.str x, w])] line) true s
      = (some a, s) := FIND_some (by rw [FIND_fst]; exact hlet)
  have hlits : ∀ l ∈ [Val.str x, w], isLiteral l = true := by
    intro l hl
    simp at hl
    rcases hl with rfl | rfl
    · rfl
    · exact hw
  have hsc : hasKey [("LET", Val.arr [.str x, w])] "script" = false := by
    have : ("LET" == "script") = false := by decide
    simp [hasKey, this]
  have hown : hasKey (s.stack.getD a []) "LET" = true :=
    hasKey_of_callable (by rw [hnat]; rfl)
  have hne : (x == "__proto__") = false := by simpa using hx
  rw [EVAL_node_literals f "LET" [.str x, w] hlits [] init line s, hF]
  simp only [hown, hnat, isCallable, if_true, hsc, Bool.false_eq_true, if_false, apply, LET,
    arg_zero, arg_one, toKey, toStr, hne]

/-! ## Shadowing -/

/-- C5 (the code at the failing input): on the stack of `inheritedShadow`
the name `toString` is bound to `1` in frame 22 and in no frame above it.
The nested script `[LET toString 5]` completes and its `run` restores the
stack; but `FIND("toString")` then returns frame 23, which binds only `y`
(`"toString" in frame` holds through the prototype chain), and the name
node `toString` yields `"[object Object]"`, the result of the inherited
`Object.prototype.toString`, instead of the value `1` of the outer binding. -/
theorem outer_binding_hidden_by_inherited_name :
    inheritedShadow.stack.length = 24
      ∧ inheritedShadow.stack.getD 22 [] = [("toString", .num 1)]
      ∧ inheritedShadow.stack.getD 23 [] = [("y", .num 2)]
      ∧ run (EVAL 8) 8 rebindToString none inheritedShadow = .ok [.undefined] inheritedShadow
      ∧ FIND "toString" (.num 1) true inheritedShadow = (some 23, inheritedShadow)
      ∧ EVAL 8 readToString none (.num 1) inheritedShadow
          = .ok (.str "[object Object]") inheritedShadow :=
  ⟨rfl, rfl, rfl, rfl, rfl, rfl⟩

/-- The parameters of a keyword node whose argument is a literal: the
literal itself, followed by the `script` field when there is one. -/
theorem evalParams_literal (fuel : Nat) (k : String) (a : Val) (ha : isLiteral a = true)
    (rest : List (String × Val)) (lineNumber : Val) (s : St) :
    evalParams (EVAL (fuel + 1)) ((k, a) :: rest) k lineNumber s
      = .ok (if hasKey ((k, a) :: rest) "script"
              then [a, getProp ((k, a) :: rest) "script"] else [a]) s := by
  have hg : getProp ((k, a) :: rest) k = a := by simp [getProp]
  unfold evalParams
  simp only [hg, EVAL_literal fuel a ha, Res.bind]
  cases a <;> simp_all [isLiteral]

/-! ## Unresolved keywords -/

theorem scan_none_of_forall {stack : List Frame} {k : String}
    (h : ∀ f ∈ stack, inFrame f k = false) : scan stack k stack.length = none := by
  rw [scan_none]
  intro m hm
  have : stack.getD m [] = stack[m] := by
    simp [List.getD_eq_getElem?_getD, List.getElem?_eq_getElem hm]
  rw [this]
  exact h _ (List.getElem_mem hm)

/-- A keyword node whose keyword `k` satisfies `k in frame` for no frame of
the stack when it is looked up does not abort the evaluation: `EVAL`
completes normally, its value is the text `k`, and the state gains exactly
one diagnostic, the one naming `k` (and the line), the stack being
untouched.
(1) For a node with a literal argument (such as `FOO 1`).
(2) For any argument whose evaluation (lines 63-69) completes normally; in
    a script, `run` then goes on with the statements `post` that follow the
    node. -/
theorem keyword_in_no_frame_degrades (fuel : Nat) (k : String) (rest : List (String × Val))
    (init : Option (List Val × List Val)) (line : Val) :
    (∀ (a : Val) (s : St), isLiteral a = true → (∀ f ∈ s.stack, inFrame f k = false) →
        EVAL (fuel + 2) (.obj ((k, a) :: rest)) init line s
            = .ok (.str k) (s.emit (.error k (lineOf ((k, a) :: rest) line)))
          ∧ (s.emit (.error k (lineOf ((k, a) :: rest) line))).out
            = s.out ++ [.error k (lineOf ((k, a) :: rest) line)]
          ∧ (s.emit (.error k (lineOf ((k, a) :: rest) line))).stack = s.stack)
      ∧ (∀ (a : Val) (params : List Val) (s s1 : St),
        evalParams (EVAL fuel) ((k, a) :: rest) k (lineOf ((k, a) :: rest) line) s
          = .ok params s1 →
        (∀ f ∈ s1.stack, inFrame f k = false) →
        EVAL (fuel + 1) (.obj ((k, a) :: rest)) init line s
            = .ok (.str k) (s1.emit (.error k (lineOf ((k, a) :: rest) line)))
          ∧ (s1.emit (.error k (lineOf ((k, a) :: rest) line))).out
            = s1.out ++ [.error k (lineOf ((k, a) :: rest) line)]
          ∧ (s1.emit (.error k (lineOf ((k, a) :: rest) line))).stack = s1.stack
          ∧ ∀ (post : List Val) (i : Nat), line = .num ((i : Int) + 1) →
              runLoop (EVAL (fuel + 1)) (.obj ((k, a) :: rest) :: post) i s
                = (runLoop (EVAL (fuel + 1)) post (i + 1)
                    (s1.emit (.error k (lineOf ((k, a) :: rest) line)))).bind
                    fun vs s2 => .ok (.str k :: vs) s2) := by
  have general : ∀ (g : Nat) (a : Val) (params : List Val) (s s1 : St),
      evalParams (EVAL g) ((k, a) :: rest) k (lineOf ((k, a) :: rest) line) s
        = .ok params s1 →
      (∀ f ∈ s1.stack, inFrame f k = false) →
      ∀ init2, EVAL (g + 1) (.obj ((k, a) :: rest)) init2 line s
        = .ok (.str k) (s1.emit (.error k (lineOf ((k, a) :: rest) line))) := by
    intro g a params s s1 hp hno init2
    have hF : FIND k (lineOf ((k, a) :: rest) line) true s1
        = (none, s1.emit (.error k (lineOf ((k, a) :: rest) line))) := by
      have := @FIND_none k (lineOf ((k, a) :: rest) line) true s1
        (by rw [FIND_fst]; exact scan_none_of_forall hno)
      simpa using this
    have e : EVAL (g + 1) = evalStep (EVAL g) g := rfl
    rw [e]
    simp only [evalStep, dispatch, firstKey, toKey, toStr, hp, Res.bind, hF]
  constructor
  · intro a s ha hno
    exact ⟨general (fuel + 1) a _ s s (evalParams_literal fuel k a ha rest _ s) hno init,
      rfl, rfl⟩
  · intro a params s s1 hp hno
    refine ⟨general fuel a params s s1 hp hno init, rfl, rfl, ?_⟩
    intro post i hline
    subst hline
    simp only [runLoop, general fuel a params s s1 hp hno none, Res.bind]

/-- C6 (the code at the failing input): in the freshly loaded interpreter
no frame binds `toString`, as none binds `FOO`.  The node `FOO 1` on line 1
evaluates to the text `"FOO"` and reports `FOO` once; the node `toString 1`
reports nothing and evaluates to `"[object Object]"`: `FIND` returns the
topmost frame, because `keyword in frame` (line 37) holds for the names
inherited from `Object.prototype`, and lines 73-76 apply the inherited
`Object.prototype.toString`. -/
theorem inherited_keyword_is_not_reported :
    (∀ f ∈ initial.stack, hasKey f "toString" = false)
      ∧ (∀ f ∈ initial.stack, hasKey f "FOO" = false)
      ∧ EVAL 8 (.obj [("FOO", .num 1)]) none (.num 1) initial
          = .ok (.str "FOO") { initial with out := [.error "FOO" (.num 1)] }
      ∧ FIND "toString" (.num 1) true initial = (some 21, initial)
      ∧ EVAL 8 (.obj [("toString", .num 1)]) none (.num 1) initial
          = .ok (.str "[object Object]") initial :=
  ⟨by decide, by decide, rfl, rfl, rfl⟩

/-! ## `LET` and reading a name back -/

theorem getD_append_cons_length (stack later : List Frame) (f : Frame) :
    (stack ++ f :: later).getD stack.length [] = f := by
  simp only [List.getD_eq_getElem?_getD]
  rw [List.getElem?_append_right (Nat.le_refl _)]
  simp

theorem getD_append_cons_above (stack later : List Frame) (f : Frame) (m : Nat)
    (h : stack.length < m) :
    (stack ++ f :: later).getD m [] = later.getD (m - stack.length - 1) [] := by
  simp only [List.getD_eq_getElem?_getD]
  rw [List.getElem?_append_right (by omega)]
  obtain ⟨q, hq⟩ : ∃ q, m - stack.length = q + 1 := ⟨m - stack.length - 1, by omega⟩
  rw [hq, List.getElem?_cons_succ]
  simp

theorem scan_append_top {stack later : List Frame} {f : Frame} {k : String}
    (hf : inFrame f k = true) (hl : ∀ g ∈ later, inFrame g k = false) :
    scan (stack ++ f :: later) k (stack ++ f :: later).length = some stack.length := by
  apply scan_of_top
  · simp
  · rw [getD_append_cons_length]
    exact hf
  · intro m h1 h2
    rw [getD_append_cons_above _ _ _ _ h1]
    simp only [List.length_append, List.length_cons] at h2
    have hlt : m - stack.length - 1 < later.length := by omega
    have : later.getD (m - stack.length - 1) [] = later[m - stack.length - 1] := by
      simp [List.getD_eq_getElem?_getD, List.getElem?_eq_getElem hlt]
    rw [this]
    exact hl _ (List.getElem_mem hlt)

/-- For a name other than `__proto__`: `LET(name, v)` pushes the single
frame binding `name` to `v` on top of the stack and changes nothing else (no
other frame, not the global `variable`, no output).  When `v` is not
callable, a keyword node with keyword `name`, evaluated while that frame is
the topmost one with `name in frame` (it holds for none of the frames
`later` pushed since), yields `v`: whatever the argument `a` of the node
is, as long as its evaluation completes normally and leaves the stack as it
is, and whatever other fields the node has; in particular for every literal
argument, where the state does not change. -/
theorem LET_then_name_node (fuel n : Nat) (name : String) (hname : name ≠ "__proto__")
    (v : Val) (hv : isCallable v = false) (s : St) :
    apply (EVAL fuel) n (.native .LET) [.str name, v] s = .ok .undefined (s.push [(name, v)])
      ∧ (s.push [(name, v)]).stack = s.stack ++ [[(name, v)]]
      ∧ (s.push [(name, v)]).var = s.var
      ∧ (s.push [(name, v)]).out = s.out
      ∧ (∀ (a : Val) (rest : List (String × Val)) (init : Option (List Val × List Val))
          (line : Val) (params : List Val) (later : List Frame) (t t1 : St),
          t.stack = s.stack ++ [(name, v)] :: later →
          (∀ g ∈ later, inFrame g name = false) →
          evalParams (EVAL fuel) ((name, a) :: rest) name (lineOf ((name, a) :: rest) line) t
            = .ok params t1 →
          t1.stack = t.stack →
          EVAL (fuel + 1) (.obj ((name, a) :: rest)) init line t = .ok v t1)
      ∧ ∀ (a : Val) (rest : List (String × Val)) (init : Option (List Val × List Val))
          (line : Val) (later : List Frame) (t : St),
          isLiteral a = true →
          t.stack = s.stack ++ [(name, v)] :: later →
          (∀ g ∈ later, inFrame g name = false) →
          EVAL (fuel + 2) (.obj ((name, a) :: rest)) init line t = .ok v t := by
  have hne : (name == "__proto__") = false := by simpa using hname
  have general : ∀ (g : Nat) (a : Val) (rest : List (String × Val))
      (init : Option (List Val × List Val)) (line : Val) (params : List Val)
      (later : List Frame) (t t1 : St),
      t.stack = s.stack ++ [(name, v)] :: later →
      (∀ g ∈ later, inFrame g name = false) →
      evalParams (EVAL g) ((name, a) :: rest) name (lineOf ((name, a) :: rest) line) t
        = .ok params t1 →
      t1.stack = t.stack →
      EVAL (g + 1) (.obj ((name, a) :: rest)) init line t = .ok v t1 := ?_
  · refine ⟨by simp [apply, LET, toKey, toStr, hne], rfl, rfl, rfl, general fuel, ?_⟩
    intro a rest init line later t ha ht hlater
    exact general (fuel + 1) a rest init line _ later t t ht hlater
      (evalParams_literal fuel name a ha rest _ t) rfl
  intro fuel a rest init line params later t t1 ht hlater hp ht1
  have hscan : scan t1.stack name t1.stack.length = some s.stack.length := by
    rw [ht1, ht]
    exact scan_append_top (inFrame_of_hasKey (by simp [hasKey])) hlater
  have hF : FIND name (lineOf ((name, a) :: rest) line) true t1 = (some s.stack.length, t1) :=
    FIND_some (by rw [FIND_fst]; exact hscan)
  have hown : hasKey (t1.stack.getD s.stack.length []) name = true := by
    rw [ht1, ht, getD_append_cons_length]
    simp [hasKey]
  have hget : t1.getAt s.stack.length name = v := by
    unfold St.getAt
    rw [ht1, ht]
    rw [getD_append_cons_length]
    simp [getProp]
  have e : EVAL (fuel + 1) = evalStep (EVAL fuel) fuel := rfl
  rw [e]
  simp only [evalStep, dispatch, firstKey, toKey, toStr, hp, Res.bind, hF, hown, hget, hv]
  simp

/-- C8 (the code at the failing inputs).
(1) `LET __proto__ 5`: the assignment `obj[key] = value` of line 84 reaches
    the setter of `Object.prototype`, which ignores the number; the frame
    pushed is `{}`, it does not bind the name to `5`.  (`SET`, `FOR` and
    `import` build their frames with a computed key, which does create the
    property.)
(2) `LET toString 5 ; LET y 1 ; toString`, all in one scope: the frame of
    `y` does not bind `toString`, yet `FIND` stops at it
    (`"toString" in frame`), and the name node yields `"[object Object]"`
    instead of `5`. -/
theorem LET_binding_is_not_read_back :
    apply (EVAL 1) 1 (.native .LET) [.str "__proto__", .num 5] initial
        = .ok .undefined (initial.push [])
      ∧ run (EVAL 8) 8 letThenRead none initial
        = .ok [.undefined, .undefined, .str "[object Object]"] initial
      ∧ run (EVAL 8) 8 letPrintScript none initial
        = .ok [.undefined, .undefined] { initial with out := [.log "5"] } :=
  ⟨rfl, rfl, rfl⟩

/-! ## `SET` -/

theorem setProp_singleton (k : String) (v w : Val) : setProp [(k, v)] k w = [(k, w)] := by
  simp [setProp]

theorem set_append_length (stack : List Frame) (f g : Frame) :
    (stack ++ [f]).set stack.length g = stack ++ [g] := by
  induction stack with
  | nil => rfl
  | cons a stack ih => simp [ih]

/-- For a name other than `__proto__`: `SET(name, v)` completes normally.
If `FIND` returns a frame, of index `i`: the new state is the old one with
`name` set to `v` in frame `i`; the stack length is the same, every other
frame is the same, every other key of frame `i` has the same value, and
`FIND` still returns frame `i`, where the value of `name` is now `v`.
If `FIND` returns `null`: the new stack is the old one followed by the
single frame binding `name` to `v`, and `FIND` returns that frame. -/
theorem SET_writes_frame_found (fuel n : Nat) (name : String) (hname : name ≠ "__proto__")
    (v : Val) (s : St) :
    (∀ i, (FIND name .undefined false s).1 = some i →
        apply (EVAL fuel) n (.native .SET) [.str name, v] s = .ok .undefined (s.setAt i name v)
        ∧ (s.setAt i name v).stack.length = s.stack.length
        ∧ (∀ m, m ≠ i → (s.setAt i name v).stack.getD m [] = s.stack.getD m [])
        ∧ (∀ key, key ≠ name →
            getProp ((s.setAt i name v).stack.getD i []) key = getProp (s.stack.getD i []) key)
        ∧ (FIND name .undefined false (s.setAt i name v)).1 = some i
        ∧ (s.setAt i name v).getAt i name = v)
      ∧ ((FIND name .undefined false s).1 = none →
        apply (EVAL fuel) n (.native .SET) [.str name, v] s
            = .ok .undefined (s.push [(name, v)])
        ∧ (s.push [(name, v)]).stack = s.stack ++ [[(name, v)]]
        ∧ (FIND name .undefined false (s.push [(name, v)])).1 = some s.stack.length
        ∧ (s.push [(name, v)]).getAt s.stack.length name = v) := by
  have hne : (name == "__proto__") = false := by simpa using hname
  constructor
  · intro i hi
    have hsc := hi
    rw [FIND_fst] at hsc
    obtain ⟨hlt, hk, htop⟩ := scan_some hsc
    have hframe : (s.setAt i name v).stack.getD i [] = setProp (s.stack.getD i []) name v := by
      rw [setAt_stack, getD_set]
      simp [hlt]
    refine ⟨by simp [apply, SET, toKey, toStr, hi, assign, hne], by simp, ?_, ?_, ?_, ?_⟩
    · intro m hm
      rw [setAt_stack, getD_set]
      simp [hm]
    · intro key hkey
      rw [hframe]
      exact getProp_setProp_ne _ _ _ _ (fun e => hkey e.symm)
    · rw [FIND_fst]
      have hlen : (s.setAt i name v).stack.length = s.stack.length := by simp
      rw [hlen, ← hsc]
      apply scan_congr
      intro m _
      rw [setAt_stack, getD_set]
      split
      · rename_i h
        rw [h.1]
        exact inFrame_setProp_of_inFrame _ _ _ hk
      · rfl
    · unfold St.getAt
      rw [hframe]
      exact getProp_setProp_same _ _ _
  · intro hnone
    have hsc : scan (s.push [(name, v)]).stack name (s.push [(name, v)]).stack.length
        = some s.stack.length := by
      rw [push_stack]
      exact @scan_append_top s.stack [] [(name, v)] name
        (inFrame_of_hasKey (by simp [hasKey])) (by simp)
    have hset : (s.push [(name, v)]).setAt s.stack.length name v = s.push [(name, v)] := by
      unfold St.setAt
      simp only [push_stack, getD_append_length, setProp_singleton, set_append_length]
      rfl
    refine ⟨?_, rfl, by rw [FIND_fst]; exact hsc, ?_⟩
    · simp only [apply, SET, toKey, toStr, arg_zero, arg_one, hnone]
      rw [FIND_fst, hsc]
      simp only [assign, hne, Bool.false_and, Bool.false_eq_true, if_false, hset]
    · unfold St.getAt
      rw [push_stack, getD_append_length]
      simp [getProp]

/-- C9 (the code at the failing input): in the freshly loaded interpreter no
frame binds `valueOf`, as none binds `z`.  `SET z 7` appends the frame
`z = 7`.  `SET valueOf 3` appends nothing: `FIND` returns the topmost frame
(`"valueOf" in frame` holds through the prototype chain), and line 131
writes the property `valueOf = 3` into that frame, the frame of `WHILE`;
the stack keeps its 22 frames. -/
theorem SET_of_inherited_name_changes_existing_frame :
    (∀ f ∈ initial.stack, hasKey f "valueOf" = false)
      ∧ (∀ f ∈ initial.stack, hasKey f "z" = false)
      ∧ apply (EVAL 1) 1 (.native .SET) [.str "z", .num 7] initial
          = .ok .undefined (initial.push [("z", .num 7)])
      ∧ apply (EVAL 1) 1 (.native .SET) [.str "valueOf", .num 3] initial
          = .ok .undefined
              { initial with
                stack := builtins.take 21
                  ++ [[("WHILE", .native .WHILE), ("valueOf", .num 3)]] }
      ∧ (builtins.take 21
          ++ [[("WHILE", Val.native .WHILE), ("valueOf", Val.num 3)]]).length = 22 :=
  ⟨by decide, by decide, rfl, rfl, rfl⟩

/-! ## `FOR` -/

theorem double_of_exact {x : Int} (h : Exact x) : double x = some x := by
  have h1 : x.natAbs ≤ 2 ^ 53 := by
    unfold Exact at h
    omega
  unfold double
  exact if_pos h1

theorem isDouble_of_exact {x : Int} (h : Exact x) : isDouble x = true := by
  simp [isDouble, double_of_exact h]

theorem numResult_of_exact {x : Int} (h : Exact x) : numResult x = some (.num x) := by
  simp [numResult, double_of_exact h]

theorem toNumber_num {x : Int} (h : Exact x) : toNumber (.num x) = some (.num x) := by
  simp [toNumber, isDouble_of_exact h]

theorem relational_num (cmp : Int → Int → Bool) (a b : Int) (ha : Exact a) (hb : Exact b) :
    relational cmp (.num a) (.num b) = some (.bool (cmp a b)) := by
  simp [relational, toPrimitive, toNumber_num ha, toNumber_num hb]

theorem jsAdd_num (a b : Int) (ha : Exact a) (hb : Exact b) (hab : Exact (a + b)) :
    jsAdd (.num a) (.num b) = some (.num (a + b)) := by
  simp [jsAdd, toPrimitive, numericOp, toNumber_num ha, toNumber_num hb,
    numResult_of_exact hab]

theorem exact_one : Exact 1 := by
  unfold Exact
  omega

theorem readFrame_own {f : Frame} {key : String} (h : hasKey f key = true) :
    readFrame f key = some (getProp f key) := by
  simp [readFrame, h]

theorem assignPrimitive_own {f : Frame} {key : String} (h : hasKey f key = true) (v : Val) :
    assignPrimitive f key v = setProp f key v := by
  simp [assignPrimitive, h]

theorem hasKey_single (name : String) (v : Val) : hasKey [(name, v)] name = true := by
  simp [hasKey]

theorem EVAL_arr_length (fuel : Nat) (script : List Val) (init : Option (List Val × List Val))
    (line v : Val) (t t1 : St) (h : EVAL fuel (.arr script) init line t = .ok v t1) :
    t1.stack.length = t.stack.length := by
  cases fuel with
  | zero => simp [EVAL] at h
  | succ f =>
    have e : EVAL (f + 1) = evalStep (EVAL f) f := rfl
    rw [e] at h
    simp only [evalStep] at h
    cases hr : run (EVAL f) f script init t with
    | ok vs t2 =>
      rw [hr] at h
      simp only [Res.bind, Res.ok.injEq] at h
      rw [← h.2]
      exact run_ok_length (EVAL_grows f) f script init t t2 vs hr
    | thrown w t2 => rw [hr] at h; simp [Res.bind] at h
    | timeout => rw [hr] at h; simp [Res.bind] at h
    | unsupported => rw [hr] at h; simp [Res.bind] at h

theorem atTest_resolves {L : Nat} {name : String} {c : Int} {t : St} (h : AtTest L name c t) :
    (FIND name .undefined false t).1 = some L ∧ t.getAt L name = .num c := by
  obtain ⟨_, hlen, hframe⟩ := h
  constructor
  · rw [FIND_fst, hlen]
    unfold scan
    rw [hframe]
    simp [inFrame, hasKey]
  · unfold St.getAt
    rw [hframe]
    simp [getProp]

theorem atTest_read {L : Nat} {name : String} {c : Int} {t : St} (h : AtTest L name c t) :
    t.readVariable name = some (.num c) := by
  simp only [St.readVariable, h.1]
  rw [h.2.2, readFrame_own (hasKey_single _ _)]
  simp [getProp]

theorem atTest_pass {fuel : Nat} {script : List Val} {B : St → St} {L : Nat} {name : String}
    {c : Int} {t : St} (h : AtTest L name c t) (hb : BodyPass fuel script B L t) :
    AtTest L name (c + 1) (forPass B name c t)
      ∧ (B t).readVariable name = some (.num c) := by
  obtain ⟨hvar, hlen, hframe⟩ := h
  obtain ⟨⟨v, hev⟩, hbv, hbf⟩ := hb
  have hblen : (B t).stack.length = L + 1 := by
    rw [EVAL_arr_length fuel script none .undefined v t (B t) hev, hlen]
  have hbvar : (B t).var = .onStack L := by rw [hbv, hvar]
  have hbframe : (B t).stack.getD L [] = [(name, .num c)] := by rw [hbf, hframe]
  refine ⟨⟨?_, ?_, ?_⟩, ?_⟩
  · simp [forPass, St.writeVariable, hbvar]
  · simp [forPass, St.writeVariable, hbvar, hblen]
  · simp only [forPass, St.writeVariable, hbvar, getD_set, hblen]
    rw [if_pos ⟨trivial, Nat.lt_succ_self _⟩, hbframe,
      assignPrimitive_own (hasKey_single _ _)]
    simp [setProp]
  · simp only [St.readVariable, hbvar]
    rw [hbframe, readFrame_own (hasKey_single _ _)]
    simp [getProp]

theorem forLoop_counts (fuel : Nat) (name : String) (endv : Int) (script : List Val)
    (B : St → St) (L : Nat) (he : Exact endv) (he1 : Exact (endv + 1)) :
    ∀ (k : Nat) (c : Int) (t : St) (m : Nat), AtTest L name c t → Exact c →
      k = (endv + 1 - c).toNat → k < m →
      (∀ q, q < k → BodyPass fuel script B L (forPasses B name q c t)) →
      forLoop (EVAL fuel) name (.num endv) .null (.arr script) m t
          = .ok .undefined (forPasses B name k c t)
        ∧ ∀ q, q ≤ k → AtTest L name (c + q) (forPasses B name q c t) := by
  intro k
  induction k with
  | zero =>
    intro c t m hat hce hk hm _
    obtain ⟨m, rfl⟩ : ∃ m2, m = m2 + 1 := ⟨m - 1, by omega⟩
    have hread := atTest_read hat
    have hc : ¬ c ≤ endv := by omega
    refine ⟨?_, ?_⟩
    · unfold forLoop
      simp [hread, relational_num _ _ _ hce he, truthy, hc, forPasses]
    · intro q hq
      have : q = 0 := by omega
      subst this
      simpa [forPasses] using hat
  | succ k ih =>
    intro c t m hat hce hk hm hbody
    obtain ⟨m, rfl⟩ : ∃ m2, m = m2 + 1 := ⟨m - 1, by omega⟩
    have hread := atTest_read hat
    have hc : c ≤ endv := by omega
    have hc1 : Exact (c + 1) := by
      unfold Exact at hce he1 ⊢
      omega
    have hb0 : BodyPass fuel script B L t := by simpa [forPasses] using hbody 0 (by omega)
    obtain ⟨hnext, hread2⟩ := atTest_pass hat hb0
    obtain ⟨v, hev⟩ := hb0.1
    have hrec := ih (c + 1) (forPass B name c t) m hnext hc1 (by omega) (by omega)
      (fun q hq => by simpa [forPasses] using hbody (q + 1) (by omega))
    refine ⟨?_, ?_⟩
    · unfold forLoop
      simp only [hread, relational_num _ _ _ hce he, truthy, hc, decide_True, if_true, hev,
        Res.bind, hread2, Bool.false_eq_true, if_false, jsAdd_num _ _ hce exact_one hc1]
      rw [forPasses]
      exact hrec.1
    · intro q hq
      cases q with
      | zero => simpa [forPasses] using hat
      | succ q =>
        have := hrec.2 q (by omega)
        rw [forPasses]
        have e : c + ((q + 1 : Nat) : Int) = c + 1 + (q : Int) := by push_cast; ring
        rw [e]
        exact this

theorem forStart_atTest (s : St) (name : String) (start : Int) :
    AtTest s.stack.length name start (forStart s name (.num start)) := by
  refine ⟨rfl, by simp [forStart], ?_⟩
  show (s.stack ++ [[(name, Val.num start)]]).getD s.stack.length [] = _
  rw [getD_append_length]

theorem forLoop_stuck_at_2_pow_53 (m : Nat) :
    forLoop (EVAL 2) "i" (.num 9007199254740994) .null (.arr []) m
      (forStart initial "i" (.num 9007199254740992)) = .timeout := by
  induction m with
  | zero => rfl
  | succ m ih =>
    have step : forLoop (EVAL 2) "i" (.num 9007199254740994) .null (.arr []) (m + 1)
        (forStart initial "i" (.num 9007199254740992))
      = forLoop (EVAL 2) "i" (.num 9007199254740994) .null (.arr []) m
        (forStart initial "i" (.num 9007199254740992)) := rfl
    rw [step, ih]

/-- C10 (counterexample): numbers are doubles, and beyond `2^53` in
magnitude not every integer is one.
(1) `FOR i -9007199254740994 -9007199254740992 null [PRINT i]` evaluates its
    body twice, not once for each of the three integers from start to end:
    the increment of `-9007199254740994` is `-9007199254740992`.
(2) `FOR i 9007199254740992 9007199254740994 null []` never finishes,
    whatever the bound on the iterations: `9007199254740992 + 1` is
    `9007199254740992`, and the loop variable stays below `end`. -/
theorem FOR_miscounts_beyond_2_pow_53 :
    apply (EVAL 5) 5 (.native .FOR) forBelowArgs initial
        = .ok .undefined
            { stack := builtins ++ [[("i", .num (-9007199254740991))]], var := .onStack 22,
              out := [.log "-9007199254740994", .log "-9007199254740992"] }
      ∧ ∀ m, apply (EVAL 2) m (.native .FOR) forAboveArgs initial = .timeout :=
  ⟨rfl, fun m => forLoop_stuck_at_2_pow_53 m⟩

/-- C10 (amended): `FOR(name, start, end, null, script)` for integers
`start` and `end` with `|start| <= 2^53`, `|end| <= 2^53` and
`end + 1 <= 2^53`, called with `L` frames on the stack.  Let `B` describe
the effect of the body and assume of each pass the loop makes that the body
completes normally, runs no other `FOR` and does not write the loop frame
(`BodyPass`).  With a bound `m` on the iterations larger than the number
of passes, the call completes normally and its final state is that of
`(end + 1 - start)` passes in a row (none when `start > end`), the body
being evaluated once in each, for the values `start`, `start + 1`, ...,
`end` in this order; at the start of pass `q` the name resolves to the
loop frame `L` and its value is `start + q`; at the end the loop frame is
still the top of the stack and holds `end + 1` (`start` when
`start > end`). -/
theorem FOR_counts_from_start_to_end (fuel m : Nat) (name : String) (start endv : Int)
    (script : List Val) (B : St → St) (s : St)
    (hstart : Exact start) (hend : Exact endv) (hend1 : Exact (endv + 1))
    (hm : (endv + 1 - start).toNat < m)
    (hbody : ∀ q, q < (endv + 1 - start).toNat →
      BodyPass fuel script B s.stack.length
        (forPasses B name q start (forStart s name (.num start)))) :
    apply (EVAL fuel) m (.native .FOR)
        [.str name, .num start, .num endv, .null, .arr script] s
        = .ok .undefined
            (forPasses B name (endv + 1 - start).toNat start (forStart s name (.num start)))
      ∧ (∀ q, q < (endv + 1 - start).toNat →
          (FIND name .undefined false
              (forPasses B name q start (forStart s name (.num start)))).1
            = some s.stack.length
          ∧ (forPasses B name q start (forStart s name (.num start))).getAt s.stack.length name
            = .num (start + q))
      ∧ (forPasses B name (endv + 1 - start).toNat start
            (forStart s name (.num start))).stack.length = s.stack.length + 1
      ∧ (FIND name .undefined false
            (forPasses B name (endv + 1 - start).toNat start (forStart s name (.num start)))).1
          = some s.stack.length
      ∧ (forPasses B name (endv + 1 - start).toNat start
            (forStart s name (.num start))).getAt s.stack.length name
          = .num (if start ≤ endv then endv + 1 else start) := by
  obtain ⟨hrun, hat⟩ := forLoop_counts fuel name endv script B s.stack.length hend hend1
    (endv + 1 - start).toNat start (forStart s name (.num start)) m
    (forStart_atTest s name start) hstart rfl hm hbody
  have hfin := hat (endv + 1 - start).toNat (Nat.le_refl _)
  refine ⟨?_, ?_, hfin.2.1, (atTest_resolves hfin).1, ?_⟩
  · simp only [apply, FOR, toKey, toStr]
    exact hrun
  · intro q hq
    exact atTest_resolves (hat q (Nat.le_of_lt hq))
  · rw [(atTest_resolves hfin).2]
    congr 1
    split <;> omega

/-- Instance of `FOR_counts_from_start_to_end`: `FOR i 1 3 null [PRINT i]`
in the freshly loaded interpreter outputs `1`, `2`, `3` and leaves the loop
frame on the stack with `i = 4`. -/
theorem FOR_counts_from_start_to_end_witness :
    apply (EVAL 5) 5 (.native .FOR) forPrintArgs initial
        = .ok .undefined
            { stack := builtins ++ [[("i", .num 4)]], var := .onStack 22,
              out := [.log "1", .log "2", .log "3"] }
      ∧ apply (EVAL 5) 5 (.native .FOR) forPrintArgs initial
        = .ok .undefined (forPasses printI "i" 3 1 (forStart initial "i" (.num 1))) :=
  ⟨rfl,
   (FOR_counts_from_start_to_end 5 5 "i" 1 3 [.obj [("PRINT", .obj [("i", .null)])]] printI
      initial ⟨by decide, by decide⟩ ⟨by decide, by decide⟩ ⟨by decide, by decide⟩ (by decide)
      (fun q hq =>
        match q, hq with
        | 0, _ => ⟨⟨_, rfl⟩, rfl, rfl⟩
        | 1, _ => ⟨⟨_, rfl⟩, rfl, rfl⟩
        | 2, _ => ⟨⟨_, rfl⟩, rfl, rfl⟩
        | q + 3, h => absurd h (by simp))).1⟩

/-! ## Nested `FOR` loops -/

/-- C11 (the code at the failing input): in
`FOR i 1 2 null [FOR j 1 2 null [PRINT i "," j]]` the inner `FOR` assigns
its own loop frame to the global `variable` (line 223 has no `var`).  When
the inner loop is over, the outer loop increments and tests that frame
instead of its own: `variable["i"]` is `undefined`, the increment makes it
`NaN`, and the test `NaN <= 2` fails.  The body is evaluated twice
(`1,1` and `1,2`) instead of four times, and the outer loop frame still
holds `i = 1` instead of `3`. -/
theorem nested_FOR_stops_after_first_outer_pass :
    EVAL 12 nestedFor none (.num 1) initial
      = .ok .undefined
          { stack := builtins ++ [[("i", .num 1)]],
            var := .detached [("j", .num 3), ("i", .nan)],
            out := [.log "1,1", .log "1,2"] } :=
  rfl

/-! ## A fault inside a function body -/

/-- C16 (the code at the failing input): `INC y` with `y` unbound throws a
`TypeError` and leaves the state as it is; but inside the body of `f` the
catch of the function object (lines 106-108) takes the error for a
returned value: the call `f` completes normally with the error object as
its value, the rest of the body is skipped, and the calling script goes on
(`PRINT "still running"` runs and `run` returns normally). -/
theorem INC_fault_is_swallowed_by_function_call :
    apply (EVAL 1) 1 (.native .INC) [.str "y"] initial = .thrown .typeError initial
      ∧ run (EVAL 8) 8 incInFunction none initial
        = .ok [.undefined, .typeError, .undefined]
            { initial with out := [.log "still running"] } :=
  ⟨rfl, rfl⟩

/-! ## The loop variable is shared with the body -/

theorem truthy_bool (b : Bool) : truthy (.bool b) = b := rfl

theorem readVariable_onStack {t : St} {L : Nat} (h : t.var = .onStack L) (name : String)
    (hown : hasKey (t.stack.getD L []) name = true) :
    t.readVariable name = some (t.getAt L name) := by
  simp only [St.readVariable, h, St.getAt, readFrame_own hown]

theorem writeVariable_onStack {t : St} {L : Nat} (h : t.var = .onStack L) (name : String)
    (hown : hasKey (t.stack.getD L []) name = true) (v : Val) :
    t.writeVariable name v = t.setAt L name v := by
  simp only [St.writeVariable, h, St.setAt, assignPrimitive_own hown]

theorem assign_own {s : St} {i : Nat} {k : String}
    (hown : hasKey (s.stack.getD i []) k = true) (v : Val) :
    assign s i k v = .ok .undefined (s.setAt i k v) := by
  unfold assign
  rw [hown]
  simp

theorem lt_length_of_hasKey {t : St} {L : Nat} {name : String}
    (h : hasKey (t.stack.getD L []) name = true) : L < t.stack.length := by
  by_contra hL
  have : t.stack.getD L [] = [] := by
    simp [List.getD_eq_getElem?_getD, List.getElem?_eq_none (Nat.le_of_not_lt hL)]
  rw [this] at h
  simp [hasKey] at h

theorem getAt_setAt_same (t : St) (L : Nat) (name : String) (v : Val)
    (hL : L < t.stack.length) : (t.setAt L name v).getAt L name = v := by
  unfold St.getAt
  rw [setAt_stack, getD_set, if_pos ⟨rfl, hL⟩]
  exact getProp_setProp_same _ _ _

theorem hasKey_setAt_same (t : St) (L : Nat) (name : String) (v : Val)
    (hL : L < t.stack.length) : hasKey ((t.setAt L name v).stack.getD L []) name = true := by
  rw [setAt_stack, getD_set, if_pos ⟨rfl, hL⟩, hasKey_setProp]
  simp

/-- C12: the loop frame that `FOR` increments and tests is the frame the
body writes with `SET` and `INC`.  Let the global `variable` refer to frame
`L`, the loop frame, which binds `name`, and let `name` resolve to frame
`L` (it is not shadowed).
(1) `SET name v` writes `v` into frame `L`, and `variable[name]` is then `v`.
(2) `INC name` writes the incremented value `u` of the frame into frame `L`,
    and `variable[name]` is then `u`.
(3) For an integer `c` below `2^53` in magnitude the incremented value is
    `c + 1`.
(4) A pass of the loop: the test of the value in the frame against `end`
    succeeds; the body completes and leaves a value in the frame (and
    `variable` as it is); with `r` that value plus the step (`1` for a falsy
    step), the loop goes on from the state in which the frame holds `r`,
    which is what the next test reads.
(5) The loop ends, changing nothing, as soon as the test of the value in
    the frame against `end` fails. -/
theorem FOR_shares_loop_variable (fuel n : Nat) (name : String) (L : Nat) :
    (∀ (v : Val) (t : St), t.var = .onStack L →
        (FIND name .undefined false t).1 = some L →
        hasKey (t.stack.getD L []) name = true →
        apply (EVAL fuel) n (.native .SET) [.str name, v] t = .ok .undefined (t.setAt L name v)
          ∧ (t.setAt L name v).var = .onStack L
          ∧ (t.setAt L name v).readVariable name = some v)
      ∧ (∀ (u : Val) (t : St), t.var = .onStack L →
        (FIND name .undefined false t).1 = some L →
        hasKey (t.stack.getD L []) name = true →
        numericOp (fun x y => numResult (x + y)) (t.getAt L name) (.num 1) = some u →
        apply (EVAL fuel) n (.native .INC) [.str name] t = .ok .undefined (t.setAt L name u)
          ∧ (t.setAt L name u).var = .onStack L
          ∧ (t.setAt L name u).readVariable name = some u)
      ∧ (∀ (c : Int), Exact c → Exact (c + 1) →
        numericOp (fun x y => numResult (x + y)) (.num c) (.num 1) = some (.num (c + 1)))
      ∧ (∀ (m : Nat) (endv step script u test r : Val) (t t1 : St),
        t.var = .onStack L → hasKey (t.stack.getD L []) name = true →
        relational (fun x y => decide (x ≤ y)) (t.getAt L name) endv = some test →
        truthy test = true →
        EVAL fuel script none .undefined t = .ok u t1 →
        t1.var = .onStack L → hasKey (t1.stack.getD L []) name = true →
        jsAdd (t1.getAt L name) (if truthy step then step else .num 1) = some r →
        forLoop (EVAL fuel) name endv step script (m + 1) t
            = forLoop (EVAL fuel) name endv step script m (t1.setAt L name r)
          ∧ (t1.setAt L name r).var = .onStack L
          ∧ (t1.setAt L name r).readVariable name = some r)
      ∧ (∀ (m : Nat) (endv step script test : Val) (t : St),
        t.var = .onStack L → hasKey (t.stack.getD L []) name = true →
        relational (fun x y => decide (x ≤ y)) (t.getAt L name) endv = some test →
        truthy test = false →
        forLoop (EVAL fuel) name endv step script (m + 1) t = .ok .undefined t) := by
  refine ⟨?_, ?_, ?_, ?_, ?_⟩
  · intro v t hvar hfind hown
    have hL : L < t.stack.length := lt_length_of_hasKey hown
    have hvar2 : (t.setAt L name v).var = .onStack L := hvar
    refine ⟨by simp only [apply, SET, toKey, toStr, arg_zero, arg_one, hfind, assign_own hown],
      hvar2, ?_⟩
    rw [readVariable_onStack hvar2 name (hasKey_setAt_same _ _ _ _ hL),
      getAt_setAt_same _ _ _ _ hL]
  · intro u t hvar hfind hown hu
    have hL : L < t.stack.length := lt_length_of_hasKey hown
    have hvar2 : (t.setAt L name u).var = .onStack L := hvar
    refine ⟨?_, hvar2, ?_⟩
    · simp only [apply, INC, toKey, toStr, arg_zero, hfind, hown, hu, assign_own hown,
        Bool.not_true, Bool.and_false, Bool.false_eq_true, if_false]
    · rw [readVariable_onStack hvar2 name (hasKey_setAt_same _ _ _ _ hL),
        getAt_setAt_same _ _ _ _ hL]
  · intro c hc hc1
    simp [numericOp, toNumber_num hc, toNumber_num exact_one, numResult_of_exact hc1]
  · intro m endv step script u test r t t1 hvar hown htest htrue hev hvar1 hown1 hr
    have hL : L < t1.stack.length := lt_length_of_hasKey hown1
    have hvar2 : (t1.setAt L name r).var = .onStack L := hvar1
    refine ⟨?_, hvar2, ?_⟩
    · rw [forLoop]
      simp only [readVariable_onStack hvar name hown, htest, htrue, if_true, hev, Res.bind,
        readVariable_onStack hvar1 name hown1, hr, writeVariable_onStack hvar1 name hown1]
    · rw [readVariable_onStack hvar2 name (hasKey_setAt_same _ _ _ _ hL),
        getAt_setAt_same _ _ _ _ hL]
  · intro m endv step script test t hvar hown htest hfalse
    rw [forLoop]
    simp [readVariable_onStack hvar name hown, htest, hfalse]

/-- Instance of `FOR_shares_loop_variable`: `FOR i 1 5 null [INC i]` makes
three passes, entered with `i = 1`, `3` and `5`, and ends with `i = 7`. -/
theorem FOR_shares_loop_variable_witness :
    apply (EVAL 5) 5 (.native .FOR) forIncArgs initial = .ok .undefined (loopAt 7)
      ∧ forStart initial "i" (.num 1) = loopAt 1
      ∧ forLoop (EVAL 5) "i" (.num 5) .null incBody (3 + 1) (loopAt 1)
        = forLoop (EVAL 5) "i" (.num 5) .null incBody 3 (loopAt 3)
      ∧ forLoop (EVAL 5) "i" (.num 5) .null incBody (2 + 1) (loopAt 3)
        = forLoop (EVAL 5) "i" (.num 5) .null incBody 2 (loopAt 5)
      ∧ forLoop (EVAL 5) "i" (.num 5) .null incBody (1 + 1) (loopAt 5)
        = forLoop (EVAL 5) "i" (.num 5) .null incBody 1 (loopAt 7)
      ∧ forLoop (EVAL 5) "i" (.num 5) .null incBody (0 + 1) (loopAt 7)
        = .ok .undefined (loopAt 7)
      ∧ apply (EVAL 5) 5 (.native .INC) [.str "i"] (loopAt 1) = .ok .undefined (loopAt 2) :=
  ⟨rfl, rfl,
   ((FOR_shares_loop_variable 5 5 "i" 22).2.2.2.1 3 (.num 5) .null incBody (.arr [.undefined])
      (.bool true) (.num 3) (loopAt 1) (loopAt 2) rfl rfl rfl rfl rfl rfl rfl rfl).1,
   ((FOR_shares_loop_variable 5 5 "i" 22).2.2.2.1 2 (.num 5) .null incBody (.arr [.undefined])
      (.bool true) (.num 5) (loopAt 3) (loopAt 4) rfl rfl rfl rfl rfl rfl rfl rfl).1,
   ((FOR_shares_loop_variable 5 5 "i" 22).2.2.2.1 1 (.num 5) .null incBody (.arr [.undefined])
      (.bool true) (.num 7) (loopAt 5) (loopAt 6) rfl rfl rfl rfl rfl rfl rfl rfl).1,
   (FOR_shares_loop_variable 5 5 "i" 22).2.2.2.2 0 (.num 5) .null incBody (.bool false)
      (loopAt 7) rfl rfl rfl rfl,
   ((FOR_shares_loop_variable 5 5 "i" 22).2.1 (.num 2) (loopAt 1) rfl rfl rfl rfl).1⟩

/-! ## The step of `FOR` -/

/-- C13 (counterexample): `FOR i 1 3 [PRINT i]`, with no step argument, does
not behave like `FOR i 1 3 1 [PRINT i]`.  The script is appended right
after the three arguments, so `FOR` receives it as `step` and receives no
`script`: the body is never evaluated (no output), the increment
concatenates the loop variable with the text of the body, and the loop
ends after one pass with `i = "1[object Object]"`.  With step `1` the
body prints `1`, `2`, `3` and `i` ends at `4`. -/
theorem FOR_without_step_never_runs_body :
    EVAL 8 forNoStep none (.num 1) initial
        = .ok .undefined
            { stack := builtins ++ [[("i", .str "1[object Object]")]], var := .onStack 22,
              out := [] }
      ∧ EVAL 8 forStepOne none (.num 1) initial
        = .ok .undefined
            { stack := builtins ++ [[("i", .num 4)]], var := .onStack 22,
              out := [.log "1", .log "2", .log "3"] }
      ∧ EVAL 8 forNoStep none (.num 1) initial ≠ EVAL 8 forStepOne none (.num 1) initial := by
  have h1 : EVAL 8 forNoStep none (.num 1) initial
        = .ok .undefined
            { stack := builtins ++ [[("i", .str "1[object Object]")]], var := .onStack 22,
              out := [] } := rfl
  have h2 : EVAL 8 forStepOne none (.num 1) initial
        = .ok .undefined
            { stack := builtins ++ [[("i", .num 4)]], var := .onStack 22,
              out := [.log "1", .log "2", .log "3"] } := rfl
  refine ⟨h1, h2, ?_⟩
  rw [h1, h2]
  intro h
  injection h with _ h
  injection h with _ _ h
  cases h

theorem forLoop_falsy_step (ev : Evaluator) (key : String) (endv step script : Val)
    (hstep : truthy step = false) (n : Nat) (s : St) :
    forLoop ev key endv step script n s = forLoop ev key endv (.num 1) script n s := by
  induction n generalizing s with
  | zero => rfl
  | succ n ih =>
    have h1 : truthy (.num 1) = true := rfl
    rw [forLoop, forLoop]
    simp only [hstep, h1, if_true, Bool.false_eq_true, if_false, ih]

/-- C13 (amended): the default step `1` applies when the step argument is
present and falsy, such as `null`: `FOR name start end step script` with a
falsy `step` is `FOR name start end 1 script`.  For integers `start` and
`end` with `|start| <= 2^53`, `|end| <= 2^53` and `end + 1 <= 2^53`, and a
body that in each pass completes normally, runs no other `FOR` and does not
write the loop frame (`BodyPass`), the body is then evaluated once for each
integer from `start` to `end`, and the loop variable ends at `end + 1` when
`start <= end`. -/
theorem FOR_falsy_step_defaults_to_one (fuel m : Nat) (name : String) (start endv : Int)
    (step : Val) (script : List Val) (B : St → St) (s : St)
    (hstep : truthy step = false)
    (hstart : Exact start) (hend : Exact endv) (hend1 : Exact (endv + 1))
    (hm : (endv + 1 - start).toNat < m)
    (hbody : ∀ q, q < (endv + 1 - start).toNat →
      BodyPass fuel script B s.stack.length
        (forPasses B name q start (forStart s name (.num start)))) :
    apply (EVAL fuel) m (.native .FOR) [.str name, .num start, .num endv, step, .arr script] s
        = apply (EVAL fuel) m (.native .FOR)
            [.str name, .num start, .num endv, .num 1, .arr script] s
      ∧ apply (EVAL fuel) m (.native .FOR)
            [.str name, .num start, .num endv, .num 1, .arr script] s
        = .ok .undefined
            (forPasses B name (endv + 1 - start).toNat start (forStart s name (.num start)))
      ∧ (start ≤ endv →
          (forPasses B name (endv + 1 - start).toNat start
            (forStart s name (.num start))).getAt s.stack.length name = .num (endv + 1)) := by
  obtain ⟨hrun, hat⟩ := forLoop_counts fuel name endv script B s.stack.length hend hend1
    (endv + 1 - start).toNat start (forStart s name (.num start)) m
    (forStart_atTest s name start) hstart rfl hm hbody
  have hfin := hat (endv + 1 - start).toNat (Nat.le_refl _)
  have hnull : truthy .null = false := rfl
  refine ⟨?_, ?_, ?_⟩
  · simp only [apply, FOR, toKey, toStr, arg_zero, arg_one, arg]
    exact forLoop_falsy_step _ _ _ _ _ hstep _ _
  · simp only [apply, FOR, toKey, toStr, arg_zero, arg_one, arg]
    have := forLoop_falsy_step (EVAL fuel) name (.num endv) .null (.arr script) hnull m
      (forStart s name (.num start))
    simp only [List.getD_cons_zero, List.getD_cons_succ] at this ⊢
    rw [← this]
    exact hrun
  · intro hle
    rw [(atTest_resolves hfin).2]
    congr 1
    omega

/-- Instance of `FOR_falsy_step_defaults_to_one`: `FOR i 1 3 null [PRINT i]`
is `FOR i 1 3 1 [PRINT i]`, which prints `1`, `2`, `3` and ends with
`i = 4`. -/
theorem FOR_falsy_step_defaults_to_one_witness :
    apply (EVAL 5) 5 (.native .FOR) forPrintArgs initial
        = apply (EVAL 5) 5 (.native .FOR)
            [.str "i", .num 1, .num 3, .num 1, .arr [printIStatement]] initial
      ∧ apply (EVAL 5) 5 (.native .FOR)
            [.str "i", .num 1, .num 3, .num 1, .arr [printIStatement]] initial
        = .ok .undefined
            { stack := builtins ++ [[("i", .num 4)]], var := .onStack 22,
              out := [.log "1", .log "2", .log "3"] } :=
  ⟨(FOR_falsy_step_defaults_to_one 5 5 "i" 1 3 .null [printIStatement] printI initial rfl
      ⟨by decide, by decide⟩ ⟨by decide, by decide⟩ ⟨by decide, by decide⟩ (by decide)
      (fun q hq =>
        match q, hq with
        | 0, _ => ⟨⟨_, rfl⟩, rfl, rfl⟩
        | 1, _ => ⟨⟨_, rfl⟩, rfl, rfl⟩
        | 2, _ => ⟨⟨_, rfl⟩, rfl, rfl⟩
        | q + 3, h => absurd h (by simp))).1,
   rfl⟩

/-! ## `IF` -/

/-- C14: `IF(condition, [thenScript, elseScript])` evaluates exactly one
branch.
(1) With a truthy condition its effect is that of one evaluation of the
    then-script, whatever the else-script is and whether or not there is
    one.
(2) With a falsy condition and an else-script (a sequence) its effect is
    that of one evaluation of the else-script, whatever the then-script is.
(3) With a falsy condition and no else-script nothing is evaluated: the
    call completes with the state it started in. -/
theorem IF_selects_exactly_one_branch (fuel n : Nat) :
    (∀ (condition thenScript : Val) (more : List Val) (s : St), truthy condition = true →
        apply (EVAL fuel) n (.native .IF) [condition, .arr (thenScript :: more)] s
          = (EVAL fuel thenScript none .undefined s).bind fun _ s1 => .ok .undefined s1)
      ∧ (∀ (condition thenScript : Val) (elseScript : List Val) (s : St),
        truthy condition = false →
        apply (EVAL fuel) n (.native .IF) [condition, .arr [thenScript, .arr elseScript]] s
          = (EVAL fuel (.arr elseScript) none .undefined s).bind fun _ s1 => .ok .undefined s1)
      ∧ (∀ (condition thenScript : Val) (s : St), truthy condition = false →
        apply (EVAL fuel) n (.native .IF) [condition, .arr [thenScript]] s
          = .ok .undefined s) := by
  refine ⟨?_, ?_, ?_⟩
  · intro condition thenScript more s hc
    simp [apply, IF, hc, index]
  · intro condition thenScript elseScript s hc
    have ht : truthy (.arr elseScript) = true := rfl
    simp [apply, IF, hc, index, ht]
  · intro condition thenScript s hc
    have hu : truthy .undefined = false := rfl
    simp [apply, IF, hc, index, hu]

/-- Instance of `IF_selects_exactly_one_branch`: the node
`IF (== 1 2) [[PRINT "yes"]] [[PRINT "no"]]` outputs `no` only; its
condition is `false`, and `IF` then is one evaluation of the else-script. -/
theorem IF_selects_exactly_one_branch_witness :
    EVAL 8 ifExample none (.num 1) initial = .ok .undefined { initial with out := [.log "no"] }
      ∧ apply (EVAL 5) 5 (.native .IF)
          [.bool false, .arr [.arr [.obj [("PRINT", .str "yes")]],
                              .arr [.obj [("PRINT", .str "no")]]]] initial
        = (EVAL 5 (.arr [.obj [("PRINT", .str "no")]]) none .undefined initial).bind
            fun _ s1 => .ok .undefined s1 :=
  ⟨rfl, (IF_selects_exactly_one_branch 5 5).2.1 (.bool false)
    (.arr [.obj [("PRINT", .str "yes")]]) [.obj [("PRINT", .str "no")]] initial rfl⟩

/-! ## `RETURN` outside any function -/

theorem resolves_forStart {s : St} {k : String} {f : Val} (h : Resolves s k f)
    (key : String) (v : Val) (hne : key ≠ k) (hinh : inherited k = false) :
    Resolves (forStart s key v) k f := by
  obtain ⟨i, hi, hg⟩ := h
  obtain ⟨hlt, _, _⟩ := scan_some hi
  refine ⟨i, ?_, ?_⟩
  · show scan (s.stack ++ [[(key, v)]]) k (s.stack ++ [[(key, v)]]).length = some i
    rw [List.length_append, List.length_singleton, scan, getD_append_length]
    have hk : inFrame [(key, v)] k = false := by simp [inFrame, hasKey, hne, hinh]
    rw [hk]
    simp only [Bool.false_eq_true, if_false]
    rw [← hi]
    exact scan_congr (fun m hm => by rw [getD_append_left _ _ _ hm])
  · show getProp ((s.stack ++ [[(key, v)]]).getD i []) k = f
    rw [getD_append_left _ _ _ hlt]
    exact hg

/-- A keyword node with a literal argument whose keyword resolves to a
function: the function is applied to the literal (and the script field). -/
theorem EVAL_node_literal_apply (g : Nat) (k : String) (a : Val) (ha : isLiteral a = true)
    (rest : List (String × Val)) (init : Option (List Val × List Val)) (line : Val) (s : St)
    (f : Val) (hres : Resolves s k f) (hf : isCallable f = true) :
    EVAL (g + 2) (.obj ((k, a) :: rest)) init line s
      = apply (EVAL (g + 1)) (g + 1) f
          (if hasKey ((k, a) :: rest) "script"
            then [a, getProp ((k, a) :: rest) "script"] else [a]) s := by
  obtain ⟨i, hi, hg⟩ := hres
  have hF : FIND k (lineOf ((k, a) :: rest) line) true s = (some i, s) :=
    FIND_some (by rw [FIND_fst]; exact hi)
  have hown : hasKey (s.stack.getD i []) k = true :=
    hasKey_of_callable (by rw [hg]; exact hf)
  have e : EVAL (g + 2) = evalStep (EVAL (g + 1)) (g + 1) := rfl
  rw [e]
  simp only [evalStep, dispatch, firstKey, toKey, toStr, evalParams_literal g k a ha,
    Res.bind, hF, hown, hg, hf, if_true]

/-- A keyword node with an array of literals as argument whose keyword
resolves to a function: the function is applied to the literals (and the
script field). -/
theorem EVAL_node_literals_apply (g : Nat) (k : String) (lits : List Val)
    (hl : ∀ l ∈ lits, isLiteral l = true) (rest : List (String × Val))
    (init : Option (List Val × List Val)) (line : Val) (s : St)
    (f : Val) (hres : Resolves s k f) (hf : isCallable f = true) :
    EVAL (g + 3) (.obj ((k, .arr lits) :: rest)) init line s
      = apply (EVAL (g + 2)) (g + 2) f
          (if hasKey ((k, .arr lits) :: rest) "script"
            then lits ++ [getProp ((k, .arr lits) :: rest) "script"] else lits) s := by
  obtain ⟨i, hi, hg⟩ := hres
  have hF : FIND k (lineOf ((k, .arr lits) :: rest) line) true s = (some i, s) :=
    FIND_some (by rw [FIND_fst]; exact hi)
  have hown : hasKey (s.stack.getD i []) k = true :=
    hasKey_of_callable (by rw [hg]; exact hf)
  rw [EVAL_node_literals g k lits hl rest init line s, hF]
  simp only [hown, hg, hf, if_true]

theorem run_head_thrown (ev : Evaluator) (n : Nat) (e : Val) (post : List Val) (s s2 : St)
    (V : Val) (h : ev e none (.num (((0 : Nat) : Int) + 1)) s = .thrown V s2) :
    run ev n (e :: post) none s = .thrown V s2 := by
  simp only [run, runInit, runLoop, Res.bind, h]

theorem EVAL_arr_thrown (g : Nat) (script : List Val) (init : Option (List Val × List Val))
    (line V : Val) (s s2 : St) (h : run (EVAL g) g script init s = .thrown V s2) :
    EVAL (g + 1) (.arr script) init line s = .thrown V s2 := by
  have e : EVAL (g + 1) = evalStep (EVAL g) g := rfl
  rw [e]
  simp only [evalStep, h, Res.bind]

theorem controlKeywords_forStart {s : St} (h : ControlKeywords s) (v : Val) :
    ControlKeywords (forStart s "i" v) :=
  ⟨resolves_forStart h.1 "i" v (by decide) (by decide),
   resolves_forStart h.2.1 "i" v (by decide) (by decide),
   resolves_forStart h.2.2.1 "i" v (by decide) (by decide),
   resolves_forStart h.2.2.2 "i" v (by decide) (by decide)⟩

theorem forStart_out (s : St) (k : String) (v : Val) : (forStart s k v).out = s.out := rfl

/-- A `RETURN V` nested in `IF`, `FOR` and `WHILE` at any depth of a script
makes `run` throw `V`; nothing has been printed on the way. -/
theorem nest_run_thrown (V : Val) (hV : isLiteral V = true) (c : Nest) :
    ∀ (fuel n : Nat) (s : St), 2 * c.depth + 2 ≤ fuel → ControlKeywords s →
      ∃ s2, run (EVAL fuel) n (c.script V) none s = .thrown V s2 ∧ s2.out = s.out := by
  have hIFs : ("IF" == "script") = false := by decide
  have hFORs : ("FOR" == "script") = false := by decide
  have hWHILEs : ("WHILE" == "script") = false := by decide
  have hRETs : ("RETURN" == "script") = false := by decide
  induction c with
  | direct post =>
    intro fuel n s hf hcore
    obtain ⟨g, rfl⟩ : ∃ g, fuel = g + 2 := ⟨fuel - 2, by omega⟩
    refine ⟨s, ?_, rfl⟩
    apply run_head_thrown
    rw [EVAL_node_literal_apply g "RETURN" V hV [] none _ s _ hcore.1 rfl]
    simp [hasKey, hRETs, apply, RETURN]
  | inIF inner post ih =>
    intro fuel n s hf hcore
    simp only [Nest.depth] at hf
    obtain ⟨g, rfl⟩ : ∃ g, fuel = g + 2 := ⟨fuel - 2, by omega⟩
    obtain ⟨s2, hrun, hout⟩ := ih g g s (by omega) hcore
    refine ⟨s2, ?_, hout⟩
    apply run_head_thrown
    rw [EVAL_node_literal_apply g "IF" (.bool true) rfl _ none _ s _ hcore.2.1 rfl]
    simp [hasKey, getProp, hIFs, apply, IF, truthy, index,
      EVAL_arr_thrown g _ none .undefined V s s2 hrun, Res.bind]
  | inFOR inner post ih =>
    intro fuel n s hf hcore
    simp only [Nest.depth] at hf
    obtain ⟨g, rfl⟩ : ∃ g, fuel = g + 3 := ⟨fuel - 3, by omega⟩
    obtain ⟨s2, hrun, hout⟩ := ih (g + 1) (g + 1) (forStart s "i" (.num 1)) (by omega)
      (controlKeywords_forStart hcore _)
    refine ⟨s2, ?_, by rw [hout, forStart_out]⟩
    apply run_head_thrown
    have hl : ∀ l ∈ [Val.str "i", .num 1, .num 3, .null], isLiteral l = true := by
      intro l hl
      simp at hl
      rcases hl with rfl | rfl | rfl | rfl <;> rfl
    rw [EVAL_node_literals_apply g "FOR" _ hl _ none _ s _ hcore.2.2.1 rfl]
    have hread : (forStart s "i" (.num 1)).readVariable "i" = some (.num 1) :=
      atTest_read (forStart_atTest s "i" 1)
    have hrel : relational (fun x y => decide (x ≤ y)) (.num 1) (.num 3) = some (.bool true) :=
      rfl
    have hthrow := EVAL_arr_thrown (g + 1) _ none .undefined V _ s2 hrun
    simp only [hasKey, List.any_cons, List.any_nil, hFORs, beq_self_eq_true, Bool.or_true,
      Bool.or_false, Bool.false_or, if_true, getProp, Bool.false_eq_true, if_false,
      List.cons_append, List.nil_append, apply, arg, List.getD_cons_zero,
      List.getD_cons_succ, FOR, toKey, toStr]
    rw [forLoop]
    simp [hread, hrel, truthy_bool, hthrow, Res.bind]
  | inWHILE inner post ih =>
    intro fuel n s hf hcore
    simp only [Nest.depth] at hf
    obtain ⟨g, rfl⟩ : ∃ g, fuel = g + 2 := ⟨fuel - 2, by omega⟩
    obtain ⟨s2, hrun, hout⟩ := ih g g s (by omega) hcore
    refine ⟨s2, ?_, hout⟩
    apply run_head_thrown
    rw [EVAL_node_literal_apply g "WHILE" .null rfl _ none _ s _ hcore.2.2.2 rfl]
    have hthrow := EVAL_arr_thrown g _ none .undefined V s s2 hrun
    have hcond := EVAL_literal g (.bool true) rfl none .undefined s
    simp only [hasKey, List.any_cons, List.any_nil, hWHILEs, beq_self_eq_true, Bool.or_true,
      Bool.or_false, Bool.false_or, if_true, getProp, Bool.false_eq_true, if_false,
      apply, arg, List.getD_cons_zero, List.getD_cons_succ, WHILE]
    rw [whileLoop]
    simp [whileCondition, index, hcond, truthy_bool, hthrow, Res.bind]

/-- C15: a `RETURN` evaluated while no function invocation is active is not
caught; the top-level `run` ends by throwing the value and returns no
result sequence.
(1) `RETURN` throws its argument, for every value `V`.
(2) For a literal `V` and a script in which `RETURN V` sits directly or in
    `IF`, `FOR` and `WHILE` bodies nested at any depth (`Nest`), the four
    keywords having their built-in meaning: with recursion depth
    `2 * depth + 2` or more, `run` throws `V`, the statements that follow
    the `RETURN` at any level are not evaluated (nothing is printed), and
    `run` does not complete normally.
(3) In general, when the statements before `e` complete and `e` throws `V`,
    `run` throws `V` in the state of the throw, without truncating the
    stack and whatever statements follow. -/
theorem stray_RETURN_reaches_top_level (fuel n : Nat) :
    (∀ (V : Val) (rest : List Val) (s : St),
        apply (EVAL fuel) n (.native .RETURN) (V :: rest) s = .thrown V s)
      ∧ (∀ (V : Val) (c : Nest) (s : St), isLiteral V = true → ControlKeywords s →
        2 * c.depth + 2 ≤ fuel →
        (∃ s2, run (EVAL fuel) n (c.script V) none s = .thrown V s2 ∧ s2.out = s.out)
          ∧ ∀ vs s1, run (EVAL fuel) n (c.script V) none s ≠ .ok vs s1)
      ∧ (∀ (pre post : List Val) (e : Val) (init : Option (List Val × List Val)) (u V : Val)
        (s s0 s1 s2 : St) (vs : List Val),
        runInit (EVAL fuel) n init s = .ok u s0 →
        runLoop (EVAL fuel) pre 0 s0 = .ok vs s1 →
        EVAL fuel e none (.num ((pre.length : Int) + 1)) s1 = .thrown V s2 →
        run (EVAL fuel) n (pre ++ e :: post) init s = .thrown V s2) := by
  refine ⟨?_, ?_, ?_⟩
  · intro V rest s
    simp [apply, RETURN, arg]
  · intro V c s hV hcore hf
    obtain ⟨s2, hrun, hout⟩ := nest_run_thrown V hV c fuel n s hf hcore
    refine ⟨⟨s2, hrun, hout⟩, ?_⟩
    intro vs s1 h
    rw [hrun] at h
    cases h
  · intro pre post e init u V s s0 s1 s2 vs hi hpre he
    have h := runLoop_append_thrown pre post e 0 s0 s1 s2 vs V hpre (by simpa using he)
    simp [run, hi, h, Res.bind]

/-- Instance of `stray_RETURN_reaches_top_level`: in the freshly loaded
interpreter the top-level script `strayReturn` prints `start` and then
throws `7` out of `run`; none of the `PRINT`s after the `RETURN` runs. -/
theorem stray_RETURN_reaches_top_level_witness :
    run (EVAL 12) 12 strayReturn none initial
        = .thrown (.num 7)
            { stack := builtins ++ [[("i", .num 1)]], var := .onStack 22,
              out := [.log "start"] }
      ∧ (∃ s2, run (EVAL 12) 12 (strayNest.script (.num 7)) none initial = .thrown (.num 7) s2
          ∧ s2.out = initial.out) :=
  ⟨(stray_RETURN_reaches_top_level 12 12).2.2 [.obj [("PRINT", .str "start")]]
      [.obj [("PRINT", .str "after if")]] ((strayNest.script (.num 7)).headD .undefined) none .undefined
      (.num 7) initial initial { initial with out := [.log "start"] }
      { stack := builtins ++ [[("i", .num 1)]], var := .onStack 22, out := [.log "start"] }
      [.undefined] rfl rfl rfl,
   ((stray_RETURN_reaches_top_level 12 12).2.1 (.num 7) strayNest initial rfl
      ⟨⟨2, rfl, rfl⟩, ⟨20, rfl, rfl⟩, ⟨19, rfl, rfl⟩, ⟨21, rfl, rfl⟩⟩ (by decide)).1⟩

/-! ## `import` -/

theorem importPlugin_eq (plugin : List (String × Val)) (s : St) :
    importPlugin plugin s
      = { s with stack := s.stack ++ plugin.map fun p => [(p.1, p.2)] } := by
  unfold importPlugin
  induction plugin generalizing s with
  | nil => simp
  | cons p plugin ih =>
    rw [List.foldl_cons, ih]
    simp [St.push]

/-- What `import(plugin)` does: it appends to the stack one single-binding
frame per entry of the plugin, in the order of its keys, and changes nothing
else (no existing frame, not the global `variable`, no output).  When the
names of the plugin are distinct, every name `k` of the plugin that is not a
member of `Object.prototype`, with value `v`, afterwards resolves to its own
new frame, whose index is the old stack length plus the position of `k` in
the plugin, and the value found there is `v`, whatever bindings of `k` the
old stack has. -/
theorem importPlugin_frames (plugin : List (String × Val)) (s : St)
    (hnd : (plugin.map Prod.fst).Nodup) :
    (importPlugin plugin s).stack = s.stack ++ plugin.map (fun p => [(p.1, p.2)])
      ∧ (importPlugin plugin s).stack.length = s.stack.length + plugin.length
      ∧ (importPlugin plugin s).var = s.var
      ∧ (importPlugin plugin s).out = s.out
      ∧ ∀ (before after : List (String × Val)) (k : String) (v : Val),
          plugin = before ++ (k, v) :: after → inherited k = false →
          (FIND k .undefined false (importPlugin plugin s)).1
              = some (s.stack.length + before.length)
            ∧ (importPlugin plugin s).getAt (s.stack.length + before.length) k = v := by
  rw [importPlugin_eq]
  refine ⟨rfl, by simp, rfl, rfl, ?_⟩
  intro before after k v hp hinh
  subst hp
  have hstack : s.stack ++ (before ++ (k, v) :: after).map (fun p => [(p.1, p.2)])
      = (s.stack ++ before.map (fun p => [(p.1, p.2)]))
          ++ [(k, v)] :: after.map (fun p => [(p.1, p.2)]) := by
    simp
  have hlen : (s.stack ++ before.map (fun p : String × Val => [(p.1, p.2)])).length
      = s.stack.length + before.length := by simp
  have hafter : ∀ g ∈ after.map (fun p : String × Val => [(p.1, p.2)]),
      inFrame g k = false := by
    intro g hg
    rw [List.mem_map] at hg
    obtain ⟨p, hpm, rfl⟩ := hg
    have hne : p.1 ≠ k := by
      intro e
      rw [List.map_append, List.map_cons, List.nodup_append] at hnd
      have h2 := (List.nodup_cons.mp hnd.2.1).1
      exact h2 (List.mem_map.mpr ⟨p, hpm, e⟩)
    simp [inFrame, hasKey, hne, hinh]
  constructor
  · rw [FIND_fst]
    simp only [hstack]
    rw [← hlen]
    exact scan_append_top (inFrame_of_hasKey (by simp [hasKey])) hafter
  · unfold St.getAt
    simp only [hstack]
    rw [← hlen, getD_append_cons_length]
    simp [getProp]

/-- C17 (the code at the failing input): importing the plugin
`toString = "plugin", a = 1` into the freshly loaded interpreter appends the
two frames, `toString` in frame 22 and `a` in frame 23.  `FIND("toString")`
then returns frame 23, the frame of `a` (`"toString" in frame` holds through
the prototype chain), not the frame that binds the name to the plugin's
value, and the name node `toString` yields `"[object Object]"` instead of
`"plugin"`; `a` resolves to its own frame. -/
theorem import_binding_hidden_by_later_entry :
    (importPlugin toStringPlugin initial).stack
        = builtins ++ [[("toString", .str "plugin")], [("a", .num 1)]]
      ∧ FIND "toString" (.num 1) true (importPlugin toStringPlugin initial)
        = (some 23, importPlugin toStringPlugin initial)
      ∧ EVAL 8 readToString none (.num 1) (importPlugin toStringPlugin initial)
        = .ok (.str "[object Object]") (importPlugin toStringPlugin initial)
      ∧ EVAL 8 (.obj [("a", .null)]) none (.num 1) (importPlugin toStringPlugin initial)
        = .ok (.num 1) (importPlugin toStringPlugin initial) :=
  ⟨rfl, rfl, rfl, rfl⟩

/-! ## Arithmetic, relational and logical keywords -/

theorem apply_pure (ev : Evaluator) (n : Nat) (f : Native) (hf : pureKeyword f = true)
    (A B : Val) (s : St) :
    apply ev n (.native f) [A, B] s = Res.ofOption (binaryResult f A B) s := by
  cases f <;> simp [pureKeyword] at hf <;>
    simp [apply, binaryResult, Res.ofOption, arg_zero, arg_one]

theorem toNumber_double {x : Int} (h : isDouble x = true) :
    toNumber (.num x) = some (.num x) := by
  simp [toNumber, h]

/-- C18 (counterexample): numbers are doubles.  `ADD 9007199254740992 1` is
`9007199254740992`, not the sum, and `MUL 94906267 94906267` is
`9007199515875288`, not the product `9007199515875289`. -/
theorem ADD_and_MUL_round_beyond_2_pow_53 :
    apply (EVAL 1) 1 (.native .ADD) [.num 9007199254740992, .num 1] initial
        = .ok (.num 9007199254740992) initial
      ∧ apply (EVAL 1) 1 (.native .MUL) [.num 94906267, .num 94906267] initial
        = .ok (.num 9007199515875288) initial
      ∧ (94906267 : Int) * 94906267 = 9007199515875289
      ∧ apply (EVAL 1) 1 (.native .ADD) [.num 9007199254740992, .num 1] initial
        ≠ .ok (.num (9007199254740992 + 1)) initial := by
  refine ⟨rfl, rfl, by decide, ?_⟩
  have h : apply (EVAL 1) 1 (.native .ADD) [.num 9007199254740992, .num 1] initial
      = .ok (.num 9007199254740992) initial := rfl
  rw [h]
  intro e
  injection e with e _
  injection e with e
  exact absurd e (by decide)

/-- C18 (amended): for each of `ADD`, `SUB`, `MUL`, `DIV`, `MOD`, `==`, `<>`,
`>`, `<`, `>=`, `<=`, `AND`, `OR` the call with arguments `A`, `B` is a
function (`binaryResult`) of `A` and `B` alone:
(1) a call that completes leaves the state (stack, `variable`, output) as
    it was, and the same arguments give the same value in any other state;
(2) no call throws;
(3) on integers `a`, `b` (doubles with an integer value) `ADD`, `SUB` and
    `MUL` give the exact sum, difference and product whenever that result
    is at most `2^53` in magnitude, and the six relational keywords give
    the truth value of the comparison of the integers. -/
theorem binary_keywords_are_pure (fuel n : Nat) :
    (∀ (f : Native) (A B v : Val) (s s1 : St), pureKeyword f = true →
        apply (EVAL fuel) n (.native f) [A, B] s = .ok v s1 →
        s1 = s ∧ binaryResult f A B = some v
          ∧ ∀ (fuel2 n2 : Nat) (s2 : St),
              apply (EVAL fuel2) n2 (.native f) [A, B] s2 = .ok v s2)
      ∧ (∀ (f : Native) (A B V : Val) (s s1 : St), pureKeyword f = true →
        apply (EVAL fuel) n (.native f) [A, B] s ≠ .thrown V s1)
      ∧ (∀ (a b : Int) (s : St), isDouble a = true → isDouble b = true →
        (Exact (a + b) →
            apply (EVAL fuel) n (.native .ADD) [.num a, .num b] s = .ok (.num (a + b)) s)
          ∧ (Exact (a - b) →
            apply (EVAL fuel) n (.native .SUB) [.num a, .num b] s = .ok (.num (a - b)) s)
          ∧ (Exact (a * b) →
            apply (EVAL fuel) n (.native .MUL) [.num a, .num b] s = .ok (.num (a * b)) s)
          ∧ apply (EVAL fuel) n (.native .EQ) [.num a, .num b] s
              = .ok (.bool (decide (a = b))) s
          ∧ apply (EVAL fuel) n (.native .NE) [.num a, .num b] s
              = .ok (.bool (decide (a ≠ b))) s
          ∧ apply (EVAL fuel) n (.native .GT) [.num a, .num b] s
              = .ok (.bool (decide (a > b))) s
          ∧ apply (EVAL fuel) n (.native .LT) [.num a, .num b] s
              = .ok (.bool (decide (a < b))) s
          ∧ apply (EVAL fuel) n (.native .GE) [.num a, .num b] s
              = .ok (.bool (decide (a ≥ b))) s
          ∧ apply (EVAL fuel) n (.native .LE) [.num a, .num b] s
              = .ok (.bool (decide (a ≤ b))) s) := by
  refine ⟨?_, ?_, ?_⟩
  · intro f A B v s s1 hf h
    rw [apply_pure _ _ f hf] at h
    cases hr : binaryResult f A B with
    | none => rw [hr] at h; simp [Res.ofOption] at h
    | some w =>
      rw [hr] at h
      simp only [Res.ofOption, Res.ok.injEq] at h
      refine ⟨h.2.symm, by rw [h.1], ?_⟩
      intro fuel2 n2 s2
      rw [apply_pure _ _ f hf, hr, h.1]
      rfl
  · intro f A B V s s1 hf h
    rw [apply_pure _ _ f hf] at h
    cases hr : binaryResult f A B <;> rw [hr] at h <;> simp [Res.ofOption] at h
  · intro a b s ha hb
    have na := toNumber_double ha
    have nb := toNumber_double hb
    refine ⟨?_, ?_, ?_, ?_, ?_, ?_, ?_, ?_, ?_⟩
    · intro h
      simp [apply, Res.ofOption, arith, jsAdd, toPrimitive, numericOp, na, nb,
        numResult_of_exact h]
    · intro h
      simp [apply, Res.ofOption, arith, numericOp, na, nb, numResult_of_exact h]
    · intro h
      simp [apply, Res.ofOption, arith, numericOp, na, nb, numResult_of_exact h]
    all_goals
      simp [apply, Res.ofOption, compare, looseEq, relational, toPrimitive, na, nb,
        beq_eq_decide]

/-- Instance of `binary_keywords_are_pure`: `MUL 21 2` is `42` and leaves the
state alone; a completed `ADD "a" 1` (`"a1"`) left the state as it was. -/
theorem binary_keywords_are_pure_witness :
    apply (EVAL 1) 1 (.native .MUL) [.num 21, .num 2] twoX = .ok (.num 42) twoX
      ∧ apply (EVAL 1) 1 (.native .ADD) [.str "a", .num 1] twoX = .ok (.str "a1") twoX
      ∧ (twoX = twoX ∧ binaryResult .ADD (.str "a") (.num 1) = some (.str "a1")
          ∧ ∀ (fuel2 n2 : Nat) (s2 : St),
              apply (EVAL fuel2) n2 (.native .ADD) [.str "a", .num 1] s2 = .ok (.str "a1") s2) :=
  ⟨((binary_keywords_are_pure 1 1).2.2 21 2 twoX rfl rfl).2.2.1 ⟨by decide, by decide⟩, rfl,
   (binary_keywords_are_pure 1 1).1 .ADD (.str "a") (.num 1) (.str "a1") twoX twoX rfl rfl⟩

/-! ## Argument coercion -/

theorem lineOf_cons (K : String) (e : Val) (rest : List (String × Val)) (line : Val)
    (hK : K ≠ "line") : lineOf ((K, e) :: rest) line = lineOf rest line := by
  have h : (K == "line") = false := by simpa using hK
  simp [lineOf, getProp, h]

theorem hasKey_cons_ne (K key : String) (e : Val) (rest : List (String × Val))
    (hK : K ≠ key) : hasKey ((K, e) :: rest) key = hasKey rest key := by
  have h : (K == key) = false := by simpa using hK
  simp [hasKey, h]

theorem getProp_cons_ne (K key : String) (e : Val) (rest : List (String × Val))
    (hK : K ≠ key) : getProp ((K, e) :: rest) key = getProp rest key := by
  have h : (K == key) = false := by simpa using hK
  simp [getProp, h]

theorem getProp_cons_same (K : String) (e : Val) (rest : List (String × Val)) :
    getProp ((K, e) :: rest) K = e := by
  simp [getProp]

theorem splice_of_length (s s1 : St) (h : s1.stack.length = s.stack.length) :
    s1.splice s.stack.length = s1 := by
  rw [← h]
  exact splice_self s1

theorem evalParams_bare (ev : Evaluator) (K : String) (e v : Val) (rest : List (String × Val))
    (ln : Val) (s s1 : St) (hK : K ≠ "script")
    (he : ev e none ln s = .ok v s1) (hv : ∀ xs, v ≠ .arr xs) :
    evalParams ev ((K, e) :: rest) K ln s = .ok (coerced v rest) s1 := by
  unfold evalParams
  simp only [getProp_cons_same, he, Res.bind, hasKey_cons_ne K "script" _ rest hK,
    getProp_cons_ne K "script" _ rest hK]
  cases v with
  | arr xs => exact absurd rfl (hv xs)
  | _ => rfl

theorem evalParams_singleton (g : Nat) (K : String) (e v : Val) (rest : List (String × Val))
    (ln : Val) (s s1 : St) (hK : K ≠ "script")
    (he : EVAL g e none (.num 1) s = .ok v s1)
    (hlen : s1.stack.length = s.stack.length) :
    evalParams (EVAL (g + 1)) ((K, .arr [e]) :: rest) K ln s = .ok (coerced v rest) s1 := by
  have hrun : EVAL (g + 1) (.arr [e]) none ln s = .ok (.arr [v]) s1 := by
    have he2 : EVAL g e none (.num ((0 : Nat) + 1)) s = .ok v s1 := he
    simp only [EVAL, evalStep, run, runInit, runLoop, Res.bind, he2,
      splice_of_length s s1 hlen]
  unfold evalParams
  simp only [getProp_cons_same, hrun, Res.bind, hasKey_cons_ne K "script" _ rest hK,
    getProp_cons_ne K "script" _ rest hK, coerced]
  split <;> rfl

/-- C19 (counterexample): the argument expression `LET x 1` has the value
`undefined`, which is not a sequence, yet `{PRINT: {LET: [x, 1]}}` and
`{PRINT: [{LET: [x, 1]}]}` end with different Binding Stacks: the bare form
leaves the frame of `x` on the stack, the sequence form runs the argument
as a script of its own and removes that frame when the script ends. -/
theorem bare_argument_keeps_frames_of_argument :
    EVAL 8 letArgument none (.num 1) initial
        = .ok .undefined (initial.push [("x", .num 1)])
      ∧ EVAL 8 (.obj [("PRINT", letArgument)]) none (.num 1) initial
        = .ok .undefined
            { stack := builtins ++ [[("x", .num 1)]], var := .unset, out := [.log ""] }
      ∧ EVAL 8 (.obj [("PRINT", .arr [letArgument])]) none (.num 1) initial
        = .ok .undefined { stack := builtins, var := .unset, out := [.log ""] }
      ∧ EVAL 8 (.obj [("PRINT", letArgument)]) none (.num 1) initial
        ≠ EVAL 8 (.obj [("PRINT", .arr [letArgument])]) none (.num 1) initial := by
  refine ⟨rfl, rfl, rfl, ?_⟩
  intro h
  have h1 : EVAL 8 (.obj [("PRINT", letArgument)]) none (.num 1) initial
      = .ok .undefined
          { stack := builtins ++ [[("x", .num 1)]], var := .unset, out := [.log ""] } := rfl
  have h2 : EVAL 8 (.obj [("PRINT", .arr [letArgument])]) none (.num 1) initial
      = .ok .undefined { stack := builtins, var := .unset, out := [.log ""] } := rfl
  rw [h1, h2] at h
  have h3 := congrArg (fun r => match r with
    | Res.ok _ t => t.stack.length
    | _ => 0) h
  revert h3
  decide

/-- C19 (amended): let `K` be a keyword other than `line` and `script`, and
`e` an argument expression whose evaluation completes with a value `v` that
is not a sequence, pushes no frame that is still on the stack
(`s1.stack.length = s.stack.length`), and gives the same value and state
under the line number of the node and under line `1`.  Then for `{K: e}` and
for `{K: [e]}` the keyword receives the same argument sequence: `v`,
followed by the unevaluated `script` field when the node has one; and both
nodes evaluate to the same result and the same final state. -/
theorem bare_argument_matches_singleton (g : Nat) (K : String) (e v : Val)
    (rest : List (String × Val)) (init : Option (List Val × List Val)) (line : Val)
    (s s1 : St) (hline : K ≠ "line") (hscript : K ≠ "script")
    (he1 : EVAL (g + 1) e none (lineOf ((K, e) :: rest) line) s = .ok v s1)
    (he2 : EVAL g e none (.num 1) s = .ok v s1)
    (hv : ∀ xs, v ≠ .arr xs)
    (hlen : s1.stack.length = s.stack.length) :
    evalParams (EVAL (g + 1)) ((K, e) :: rest) K (lineOf ((K, e) :: rest) line) s
        = .ok (coerced v rest) s1
      ∧ evalParams (EVAL (g + 1)) ((K, .arr [e]) :: rest) K
          (lineOf ((K, .arr [e]) :: rest) line) s = .ok (coerced v rest) s1
      ∧ EVAL (g + 2) (.obj ((K, e) :: rest)) init line s
        = EVAL (g + 2) (.obj ((K, .arr [e]) :: rest)) init line s := by
  have p1 := evalParams_bare (EVAL (g + 1)) K e v rest _ s s1 hscript he1 hv
  have p2 := evalParams_singleton g K e v rest (lineOf ((K, .arr [e]) :: rest) line) s s1
    hscript he2 hlen
  refine ⟨p1, p2, ?_⟩
  have l1 := lineOf_cons K e rest line hline
  have l2 := lineOf_cons K (.arr [e]) rest line hline
  show dispatch (EVAL (g + 1)) (g + 1) ((K, e) :: rest) (lineOf ((K, e) :: rest) line) s
    = dispatch (EVAL (g + 1)) (g + 1) ((K, .arr [e]) :: rest)
        (lineOf ((K, .arr [e]) :: rest) line) s
  have hk : toKey (.str K) = some K := rfl
  rw [l1] at p1
  rw [l2] at p2
  unfold dispatch
  simp only [firstKey, hk, p1, p2, l1, l2, Res.bind]

/-- Instance of `bare_argument_matches_singleton`: `{PRINT: (ADD 1 2)}` and
`{PRINT: [(ADD 1 2)]}` both hand `[3]` to `PRINT` and both print `3`. -/
theorem bare_argument_matches_singleton_witness :
    EVAL 6 (.obj [("PRINT", sumArgument)]) none (.num 1) initial
        = .ok .undefined { initial with out := [.log "3"] }
      ∧ (evalParams (EVAL 5) [("PRINT", sumArgument)] "PRINT"
            (lineOf [("PRINT", sumArgument)] (.num 1)) initial = .ok (coerced (.num 3) []) initial
        ∧ evalParams (EVAL 5) [("PRINT", .arr [sumArgument])] "PRINT"
            (lineOf [("PRINT", .arr [sumArgument])] (.num 1)) initial
            = .ok (coerced (.num 3) []) initial
        ∧ EVAL 6 (.obj [("PRINT", sumArgument)]) none (.num 1) initial
          = EVAL 6 (.obj [("PRINT", .arr [sumArgument])]) none (.num 1) initial) :=
  ⟨rfl, bare_argument_matches_singleton 4 "PRINT" sumArgument (.num 3) [] none (.num 1)
    initial initial (by decide) (by decide) rfl rfl (fun xs h => Val.noConfusion h) rfl⟩

/-! ## Dynamic name resolution -/

theorem callF_inNestedScript (fuel : Nat) (a b line : Val)
    (hb : isSequenceOrFunction b = false) :
    EVAL (fuel + 6) callF none line (inNestedScript a b) = .ok b (inNestedScript a b) := by
  cases b <;> simp [isSequenceOrFunction] at hb <;> rfl

theorem callF_afterDefinitions (fuel : Nat) (a line : Val)
    (ha : isSequenceOrFunction a = false) :
    EVAL (fuel + 6) callF none line (afterDefinitions a) = .ok a (afterDefinitions a) := by
  cases a <;> simp [isSequenceOrFunction] at ha <;> rfl

theorem LET_x_initial (fuel : Nat) (a line : Val) (ha : isLiteral a = true) :
    EVAL (fuel + 3) (.obj [("LET", .arr [.str "x", a])]) none line initial
      = .ok .undefined (initial.push [("x", a)]) :=
  EVAL_LET_node fuel "x" (by decide) a ha none line initial 0 rfl rfl

theorem LET_x_afterDefinitions (fuel : Nat) (a b line : Val) (hb : isLiteral b = true) :
    EVAL (fuel + 3) (.obj [("LET", .arr [.str "x", b])]) none line (afterDefinitions a)
      = .ok .undefined (inNestedScript a b) :=
  EVAL_LET_node fuel "x" (by decide) b hb none line (afterDefinitions a) 0 rfl rfl

theorem defineF_after_LET (fuel : Nat) (a line : Val) :
    EVAL (fuel + 3) defineF none line (initial.push [("x", a)])
      = .ok .undefined (afterDefinitions a) := rfl

theorem nested_script_yields_inner (fuel : Nat) (a b line : Val) (hl : isLiteral b = true)
    (hb : isSequenceOrFunction b = false) :
    EVAL (fuel + 7) (.arr [.obj [("LET", .arr [.str "x", b])], callF]) none line
        (afterDefinitions a)
      = .ok (.arr [.undefined, b]) (afterDefinitions a) := by
  have g1 := LET_x_afterDefinitions (fuel + 3) a b
  have g2 := callF_inNestedScript fuel a b
  have g3 : (inNestedScript a b).splice (afterDefinitions a).stack.length
      = afterDefinitions a := rfl
  show (run (EVAL (fuel + 6)) (fuel + 6) _ none (afterDefinitions a)).bind _ = _
  simp only [run, runInit, runLoop, Res.bind, g1 _ hl, g2 _ hb, g3]

theorem dynamicProgram_runs (fuel n : Nat) (a b : Val)
    (la : isLiteral a = true) (lb : isLiteral b = true)
    (ha : isSequenceOrFunction a = false) (hb : isSequenceOrFunction b = false) :
    run (EVAL (fuel + 7)) n (dynamicProgram a b) none initial
      = .ok [.undefined, .undefined, .arr [.undefined, b], a] initial := by
  have h1 := LET_x_initial (fuel + 4) a
  have h2 := defineF_after_LET (fuel + 4) a
  have h3 := nested_script_yields_inner fuel a b
  have h4 := callF_afterDefinitions (fuel + 1) a
  have h5 : (afterDefinitions a).splice initial.stack.length = initial := rfl
  simp only [dynamicProgram, run, runInit, runLoop, Res.bind, h1 _ la, h2, h3 _ lb hb,
    h4 _ ha, h5]

/-- C20 (counterexample): with `x` bound and `f` defined as `[RETURN x]` in
the outer script, a nested script that executes `LET x [10, 20]` reads `x`
back as the sequence `[10, 20]`, but calling `f` there yields `10`: the
sequence bound to `x` becomes the argument sequence of `RETURN`, which
returns its first element. -/
theorem RETURN_of_sequence_yields_first_element :
    run (EVAL 8) 8 rebindAndRead none withFreeName
        = .ok [.undefined, .arr [.num 10, .num 20]] withFreeName
      ∧ run (EVAL 8) 8 rebindAndCall none withFreeName
        = .ok [.undefined, .num 10] withFreeName
      ∧ run (EVAL 8) 8 rebindAndCall none withFreeName
        ≠ .ok [.undefined, .arr [.num 10, .num 20]] withFreeName := by
  refine ⟨rfl, rfl, ?_⟩
  have h2 : run (EVAL 8) 8 rebindAndCall none withFreeName
      = .ok [.undefined, .num 10] withFreeName := rfl
  rw [h2]
  intro h
  injection h with h1 _
  injection h1 with _ h3
  injection h3 with h4 _
  exact Val.noConfusion h4

/-- C20 (amended): for all values `a` and `b` that are neither sequences nor
functions, after `LET x a` and `FUNCTION f [RETURN x]` in an outer script:
(1) calling `f` in a nested script that has executed `LET x b` yields `b`;
(2) the end of that nested script restores the state of the outer script;
(3) calling `f` there yields `a`;
(4) when `a` and `b` are literals, the whole outer script
    `LET x a; FUNCTION f [RETURN x]; [LET x b; f]; f` evaluates to
    `[undefined, undefined, [undefined, b], a]`. -/
theorem free_name_resolves_at_call_time (fuel n : Nat) (a b : Val)
    (ha : isSequenceOrFunction a = false) (hb : isSequenceOrFunction b = false) :
    (∀ line, EVAL (fuel + 6) callF none line (inNestedScript a b)
        = .ok b (inNestedScript a b))
      ∧ (inNestedScript a b).splice (afterDefinitions a).stack.length = afterDefinitions a
      ∧ (∀ line, EVAL (fuel + 6) callF none line (afterDefinitions a)
        = .ok a (afterDefinitions a))
      ∧ (isLiteral a = true → isLiteral b = true →
          run (EVAL (fuel + 7)) n (dynamicProgram a b) none initial
            = .ok [.undefined, .undefined, .arr [.undefined, b], a] initial) :=
  ⟨fun line => callF_inNestedScript fuel a b line hb, rfl,
   fun line => callF_afterDefinitions fuel a line ha,
   fun la lb => dynamicProgram_runs fuel n a b la lb ha hb⟩

/-- Instance of `free_name_resolves_at_call_time` for `a = 1` and
`b = "inner"`. -/
theorem free_name_resolves_at_call_time_witness :
    isSequenceOrFunction (.num 1) = false ∧ isSequenceOrFunction (.str "inner") = false
      ∧ run (EVAL 7) 0 (dynamicProgram (.num 1) (.str "inner")) none initial
          = .ok [.undefined, .undefined, .arr [.undefined, .str "inner"], .num 1] initial :=
  ⟨rfl, rfl, (free_name_resolves_at_call_time 0 0 (.num 1) (.str "inner") rfl rfl).2.2.2
    rfl rfl⟩

end Bason
